import Mathlib

/-!
Shallow embedding of the Wa-Tor simulation (Go sources: cell.go, entity.go,
world.go, simulation.go, config.go), together with proofs checking the
natural-language specification against it.

Conventions of the embedding:
* Go `int` is modelled as `Int` for entity fields (breed timers, energies,
  rule parameters); grid side lengths and creature counts are `Nat`
  (array sizes / loop counters validated non-negative at startup).
* The 2-D cell array `[][]Cell` is modelled as a total function
  `Int → Int → Cell`; all reads and writes performed by the program use
  wrapped, in-range indices.
* `math/rand`'s `Intn n` (a uniform draw in `[0, n)`) is modelled by an
  infinite stream of naturals, consumed one value per draw and reduced
  modulo `n`.
-/

/-- entity.go: `Empty`, `Fish`, `Shark`. -/
inductive Entity where
  | empty : Entity
  | fish : Entity
  | shark : Entity
deriving DecidableEq, Repr

/-- cell.go: a grid tile with its occupant, breed timer, and (sharks only)
energy. Go's zero value for `Cell` is `⟨empty, 0, 0⟩`. -/
structure Cell where
  entity : Entity
  breedTimer : Int
  energy : Int
deriving DecidableEq, Repr

/-- The Go zero value of `Cell`, as produced by `make([][]Cell, ...)`. -/
def emptyCell : Cell := ⟨Entity.empty, 0, 0⟩

/-- world.go: the ocean grid plus the rule parameters copied from `Config`. -/
structure World where
  size : Nat
  cells : Int → Int → Cell
  fishBreed : Int
  sharkBreed : Int
  starve : Int

/-- config.go: the user-configurable parameters (the benchmark-file path,
a plain string never read by the step engine, is omitted). -/
structure Config where
  numShark : Nat
  numFish : Nat
  fishBreed : Int
  sharkBreed : Int
  starve : Int
  gridSize : Nat
  threads : Int
  chronons : Int
  drawEvery : Int

/-- `rand.RandSrc`, modelled as a stream of naturals. -/
def RandSrc : Type := Nat → Nat

/-- `rnd.Intn n`: one uniform draw in `[0, n)` plus the advanced source. -/
def RandSrc.intn (r : RandSrc) (n : Nat) : Nat × RandSrc :=
  (r 0 % n, fun k => r (k + 1))

/-- Assignment `w.Cells[r][c] = cell`. -/
def World.set (w : World) (r c : Int) (cell : Cell) : World :=
  { w with cells := fun i j => if i = r ∧ j = c then cell else w.cells i j }

/-- world.go `wrap`: maps an index one step out of range back into
`[0, size)`. -/
def World.wrap (w : World) (i : Int) : Int :=
  if i < 0 then i + w.size
  else if i ≥ (w.size : Int) then i - w.size
  else i

/-- world.go `Neighbors`: the four wrapped orthogonal neighbors, in the fixed
order North, South, West, East. -/
def World.neighbors (w : World) (row col : Int) : List (Int × Int) :=
  [(w.wrap (row - 1), col), (w.wrap (row + 1), col),
   (row, w.wrap (col - 1)), (row, w.wrap (col + 1))]

/-- All grid coordinates in row-major order, as scanned by the loops of
`StepWorld`, `countEntities` and `Populate`. -/
def intRange (n : Nat) : List Int := List.map (fun k : Nat => (k : Int)) (List.range n)

def coords (size : Nat) : List (Int × Int) :=
  (intRange size).flatMap (fun r => (intRange size).map (fun c => (r, c)))

/-- world.go `NewWorld`: an all-empty grid with parameters from the config. -/
def newWorld (cfg : Config) : World :=
  { size := cfg.gridSize
    cells := fun _ _ => emptyCell
    fishBreed := cfg.fishBreed
    sharkBreed := cfg.sharkBreed
    starve := cfg.starve }

/-- simulation.go `newEmptyWorldLike`. -/
def newEmptyWorldLike (w : World) : World :=
  { size := w.size
    cells := fun _ _ => emptyCell
    fishBreed := w.fishBreed
    sharkBreed := w.sharkBreed
    starve := w.starve }

/-- simulation.go `countEntities`: how many cells hold the given entity. -/
def countEntities (w : World) (e : Entity) : Nat :=
  ((coords w.size).filter (fun p => (w.cells p.1 p.2).entity == e)).length

/-- world.go `Populate`, shark-placement loop: consume one shuffled position
per shark, writing `Entity = Shark`, `Energy = w.Starve`, `BreedTimer = 0`. -/
def populateSharks : World → List (Int × Int) → Nat → World
  | w, _, 0 => w
  | w, [], _ + 1 => w
  | w, p :: rest, n + 1 =>
      populateSharks (w.set p.1 p.2 ⟨Entity.shark, 0, w.starve⟩) rest n

/-- world.go `Populate`, fish-placement loop: consume one shuffled position
per fish, writing `Entity = Fish`, `BreedTimer = 0` only when the cell is
still empty (energy is left as stored). -/
def populateFish : World → List (Int × Int) → Nat → World
  | w, _, 0 => w
  | w, [], _ + 1 => w
  | w, p :: rest, n + 1 =>
      populateFish
        (if (w.cells p.1 p.2).entity == Entity.empty
         then w.set p.1 p.2 ⟨Entity.fish, 0, (w.cells p.1 p.2).energy⟩
         else w)
        rest n

/-- world.go `Populate`: sharks first, then fish, along a shuffled list of all
grid positions. The shuffle performed by `rand.Shuffle` is modelled by taking
the already-shuffled `positions` list as a parameter; theorems assume it is a
permutation of all coordinates. -/
def Populate (w : World) (positions : List (Int × Int)) (numFish numShark : Nat) : World :=
  populateFish (populateSharks w positions numShark) (positions.drop numShark) numFish

/-- simulation.go stepFish, candidate collection (lines 141–147): neighbors
empty in the current world AND still empty in the next world. -/
def fishEmptySpots (current next : World) (row col : Int) : List (Int × Int) :=
  (current.neighbors row col).filter (fun n =>
    ((current.cells n.1 n.2).entity == Entity.empty) &&
    ((next.cells n.1 n.2).entity == Entity.empty))

/-- simulation.go stepShark, eat-target collection (lines 189–195): neighbors
holding a fish in the current world whose next cell is still empty. -/
def sharkFishTargets (current next : World) (row col : Int) : List (Int × Int) :=
  (current.neighbors row col).filter (fun n =>
    ((current.cells n.1 n.2).entity == Entity.fish) &&
    ((next.cells n.1 n.2).entity == Entity.empty))

/-- simulation.go stepShark, move-target collection (lines 222–228): neighbors
empty in the current world whose next cell is still empty. -/
def sharkEmptyTargets (current next : World) (row col : Int) : List (Int × Int) :=
  (current.neighbors row col).filter (fun n =>
    ((current.cells n.1 n.2).entity == Entity.empty) &&
    ((next.cells n.1 n.2).entity == Entity.empty))

/-- simulation.go `stepFish` (lines 136–176). -/
def stepFish (current next : World) (row col : Int) (cfg : Config) (rnd : RandSrc) :
    World × RandSrc :=
  let cell := current.cells row col
  let emptySpots := fishEmptySpots current next row col
  if emptySpots.length = 0 then
    (next.set row col ⟨Entity.fish, cell.breedTimer + 1, 0⟩, rnd)
  else
    let draw := rnd.intn emptySpots.length
    let destination := emptySpots.getD draw.1 (0, 0)
    if cell.breedTimer + 1 ≥ cfg.fishBreed then
      ((next.set row col ⟨Entity.fish, 0, 0⟩).set destination.1 destination.2
        ⟨Entity.fish, 0, 0⟩, draw.2)
    else
      (next.set destination.1 destination.2 ⟨Entity.fish, cell.breedTimer + 1, 0⟩, draw.2)

/-- simulation.go `stepShark` (lines 179–260). -/
def stepShark (current next : World) (row col : Int) (cfg : Config) (rnd : RandSrc) :
    World × RandSrc :=
  let cell := current.cells row col
  let newEnergy := cell.energy - 1
  if newEnergy ≤ 0 then (next, rnd)
  else
    let fishTarget := sharkFishTargets current next row col
    if 0 < fishTarget.length then
      let draw := rnd.intn fishTarget.length
      let destination := fishTarget.getD draw.1 (0, 0)
      if cell.breedTimer + 1 ≥ cfg.sharkBreed then
        (((next.set row col ⟨Entity.shark, 0, cfg.starve⟩).set destination.1 destination.2
          ⟨Entity.shark, 0, cfg.starve⟩), draw.2)
      else
        (next.set destination.1 destination.2
          ⟨Entity.shark, cell.breedTimer + 1, cfg.starve⟩, draw.2)
    else
      let emptyTarget := sharkEmptyTargets current next row col
      if 0 < emptyTarget.length then
        let draw := rnd.intn emptyTarget.length
        let destination := emptyTarget.getD draw.1 (0, 0)
        if cell.breedTimer + 1 ≥ cfg.sharkBreed then
          (((next.set row col ⟨Entity.shark, 0, cfg.starve⟩).set destination.1 destination.2
            ⟨Entity.shark, 0, newEnergy⟩), draw.2)
        else
          (next.set destination.1 destination.2
            ⟨Entity.shark, cell.breedTimer + 1, newEnergy⟩, draw.2)
      else
        (next.set row col ⟨Entity.shark, cell.breedTimer + 1, newEnergy⟩, rnd)

/-- One iteration of the double loop of simulation.go `StepWorld`
(lines 110–129): skip the coordinate when the next grid already holds an
entity there, otherwise dispatch on the current occupant. -/
def stepCell (w : World) (cfg : Config) (st : World × RandSrc) (p : Int × Int) :
    World × RandSrc :=
  if (st.1.cells p.1 p.2).entity ≠ Entity.empty then st
  else
    match (w.cells p.1 p.2).entity with
    | Entity.fish => stepFish w st.1 p.1 p.2 cfg st.2
    | Entity.shark => stepShark w st.1 p.1 p.2 cfg st.2
    | Entity.empty => st

/-- simulation.go `StepWorld` (lines 107–133): row-major scan of the current
world, accumulating writes into a fresh all-empty next world. -/
def stepWorld (w : World) (cfg : Config) (rnd : RandSrc) : World × RandSrc :=
  (coords w.size).foldl (stepCell w cfg) (newEmptyWorldLike w, rnd)

/-! ## Basic grid lemmas -/

theorem cells_set (w : World) (r c : Int) (x : Cell) (i j : Int) :
    (w.set r c x).cells i j = if i = r ∧ j = c then x else w.cells i j := rfl

theorem size_set (w : World) (r c : Int) (x : Cell) : (w.set r c x).size = w.size := rfl

theorem starve_set (w : World) (r c : Int) (x : Cell) : (w.set r c x).starve = w.starve := rfl

theorem cells_set_same (w : World) (r c : Int) (x : Cell) :
    (w.set r c x).cells r c = x := by simp [cells_set]

theorem cells_set_other (w : World) (r c : Int) (x : Cell) (i j : Int)
    (h : ¬(i = r ∧ j = c)) : (w.set r c x).cells i j = w.cells i j := by
  simp [cells_set, h]

theorem wrap_bounds (w : World) (i : Int) (h1 : -1 ≤ i) (h2 : i ≤ (w.size : Int))
    (hs : 1 ≤ w.size) :
    0 ≤ w.wrap i ∧ w.wrap i < (w.size : Int) := by
  unfold World.wrap
  split <;> [skip; split] <;> omega

theorem wrap_eq_self (w : World) (i : Int) (h1 : 0 ≤ i) (h2 : i < (w.size : Int)) :
    w.wrap i = i := by
  unfold World.wrap
  split <;> [omega; split <;> omega]

theorem mem_intRange (n : Nat) (x : Int) : x ∈ intRange n ↔ 0 ≤ x ∧ x < (n : Int) := by
  unfold intRange
  rw [List.mem_map]
  constructor
  · rintro ⟨k, hk, rfl⟩
    rw [List.mem_range] at hk
    exact ⟨Int.natCast_nonneg k, by exact_mod_cast hk⟩
  · rintro ⟨h1, h2⟩
    refine ⟨x.toNat, ?_, by simp [Int.toNat_of_nonneg h1]⟩
    rw [List.mem_range]; omega
theorem intRange_nodup (n : Nat) : (intRange n).Nodup :=
  (List.nodup_range n).map (fun x y h => by exact_mod_cast h)
theorem intRange_length (n : Nat) : (intRange n).length = n := by
  simp [intRange]
theorem mem_coords (size : Nat) (p : Int × Int) :
    p ∈ coords size ↔ 0 ≤ p.1 ∧ p.1 < (size : Int) ∧ 0 ≤ p.2 ∧ p.2 < (size : Int) := by
  obtain ⟨r, c⟩ := p
  rw [coords, List.mem_flatMap]
  constructor
  · rintro ⟨a, ha, hm⟩
    rw [List.mem_map] at hm
    obtain ⟨b, hb, h⟩ := hm
    rw [mem_intRange] at ha hb
    injection h with h1 h2
    subst h1; subst h2
    exact ⟨ha.1, ha.2, hb.1, hb.2⟩
  · rintro ⟨h1, h2, h3, h4⟩
    refine ⟨r, ?_, ?_⟩
    · rw [mem_intRange]; exact ⟨h1, h2⟩
    · rw [List.mem_map]
      exact ⟨c, by rw [mem_intRange]; exact ⟨h3, h4⟩, rfl⟩
theorem coords_nodup (size : Nat) : (coords size).Nodup := by
  unfold coords
  rw [List.nodup_flatMap]
  constructor
  · intro a _
    exact (intRange_nodup _).map (fun x y h => by
      have := congrArg Prod.snd h
      simpa using this)
  · refine List.Pairwise.imp ?_ (intRange_nodup size)
    intro a b hab
    simp only [Function.onFun, List.disjoint_left, List.mem_map]
    rintro p hp hp'
    obtain ⟨x, _, rfl⟩ := hp
    obtain ⟨y, _, h⟩ := hp'
    injection h with h1 _
    exact hab h1.symm
theorem coords_length (size : Nat) : (coords size).length = size * size := by
  unfold coords
  rw [List.length_flatMap]
  have h : List.map (List.length ∘ fun r => List.map (fun c => (r, c)) (intRange size))
      (intRange size) = List.map (fun _ => size) (intRange size) := by
    simp [Function.comp, intRange]
  rw [h, List.map_const', List.sum_replicate, intRange_length, smul_eq_mul]

theorem mem_neighbors_range (w : World) (row col : Int) (n : Int × Int)
    (hs : 1 ≤ w.size)
    (hr1 : 0 ≤ row) (hr2 : row < (w.size : Int)) (hc1 : 0 ≤ col) (hc2 : col < (w.size : Int))
    (hn : n ∈ w.neighbors row col) :
    0 ≤ n.1 ∧ n.1 < (w.size : Int) ∧ 0 ≤ n.2 ∧ n.2 < (w.size : Int) := by
  have hb1 := wrap_bounds w (row - 1) (by omega) (by omega) hs
  have hb2 := wrap_bounds w (row + 1) (by omega) (by omega) hs
  have hb3 := wrap_bounds w (col - 1) (by omega) (by omega) hs
  have hb4 := wrap_bounds w (col + 1) (by omega) (by omega) hs
  simp only [World.neighbors, List.mem_cons, List.not_mem_nil, or_false] at hn
  rcases hn with rfl | rfl | rfl | rfl <;> simp_all

theorem mem_neighbors_ne (w : World) (row col : Int) (n : Int × Int)
    (hs : 2 ≤ w.size)
    (hr1 : 0 ≤ row) (hr2 : row < (w.size : Int)) (hc1 : 0 ≤ col) (hc2 : col < (w.size : Int))
    (hn : n ∈ w.neighbors row col) : n ≠ (row, col) := by
  have u1 : w.wrap (row - 1) ≠ row := by unfold World.wrap; split <;> [omega; split <;> omega]
  have u2 : w.wrap (row + 1) ≠ row := by unfold World.wrap; split <;> [omega; split <;> omega]
  have u3 : w.wrap (col - 1) ≠ col := by unfold World.wrap; split <;> [omega; split <;> omega]
  have u4 : w.wrap (col + 1) ≠ col := by unfold World.wrap; split <;> [omega; split <;> omega]
  simp only [World.neighbors, List.mem_cons, List.not_mem_nil, or_false] at hn
  rcases hn with rfl | rfl | rfl | rfl <;> simp_all

/-! ## Membership in the candidate lists -/

theorem mem_fishEmptySpots (current next : World) (row col : Int) (n : Int × Int) :
    n ∈ fishEmptySpots current next row col ↔
      n ∈ current.neighbors row col ∧ (current.cells n.1 n.2).entity = Entity.empty ∧
      (next.cells n.1 n.2).entity = Entity.empty := by
  simp [fishEmptySpots, List.mem_filter, and_assoc]

theorem mem_sharkFishTargets (current next : World) (row col : Int) (n : Int × Int) :
    n ∈ sharkFishTargets current next row col ↔
      n ∈ current.neighbors row col ∧ (current.cells n.1 n.2).entity = Entity.fish ∧
      (next.cells n.1 n.2).entity = Entity.empty := by
  simp [sharkFishTargets, List.mem_filter, and_assoc]

theorem mem_sharkEmptyTargets (current next : World) (row col : Int) (n : Int × Int) :
    n ∈ sharkEmptyTargets current next row col ↔
      n ∈ current.neighbors row col ∧ (current.cells n.1 n.2).entity = Entity.empty ∧
      (next.cells n.1 n.2).entity = Entity.empty := by
  simp [sharkEmptyTargets, List.mem_filter, and_assoc]

theorem getD_mem_of_pos {α : Type} (l : List α) (i : Nat) (d : α) (h : i < l.length) :
    l.getD i d ∈ l := by
  rw [List.getD_eq_getElem l d h]
  exact l.getElem_mem h

/-! ## Exhaustive case analyses of the two rule procedures -/

/-- `stepFish` does exactly one of three things: stay in place with an
incremented timer when there is no candidate, breed (two writes, both with
timer 0), or move (one write with an incremented timer). -/
theorem stepFish_cases (current next : World) (row col : Int) (cfg : Config) (rnd : RandSrc) :
    (fishEmptySpots current next row col = [] ∧
      stepFish current next row col cfg rnd =
        (next.set row col ⟨Entity.fish, (current.cells row col).breedTimer + 1, 0⟩, rnd)) ∨
    (∃ d, d ∈ fishEmptySpots current next row col ∧
      (current.cells row col).breedTimer + 1 ≥ cfg.fishBreed ∧
      stepFish current next row col cfg rnd =
        ((next.set row col ⟨Entity.fish, 0, 0⟩).set d.1 d.2 ⟨Entity.fish, 0, 0⟩,
         (rnd.intn (fishEmptySpots current next row col).length).2)) ∨
    (∃ d, d ∈ fishEmptySpots current next row col ∧
      ¬((current.cells row col).breedTimer + 1 ≥ cfg.fishBreed) ∧
      stepFish current next row col cfg rnd =
        (next.set d.1 d.2 ⟨Entity.fish, (current.cells row col).breedTimer + 1, 0⟩,
         (rnd.intn (fishEmptySpots current next row col).length).2)) := by
  by_cases h : (fishEmptySpots current next row col).length = 0
  · left
    exact ⟨List.length_eq_zero.mp h, by simp [stepFish, h]⟩
  · right
    have hlen : 0 < (fishEmptySpots current next row col).length := Nat.pos_of_ne_zero h
    have hi : (rnd.intn (fishEmptySpots current next row col).length).1 <
        (fishEmptySpots current next row col).length := Nat.mod_lt _ hlen
    have hdm : (fishEmptySpots current next row col).getD
        (rnd.intn (fishEmptySpots current next row col).length).1 (0, 0) ∈
        fishEmptySpots current next row col := getD_mem_of_pos _ _ _ hi
    by_cases hb : (current.cells row col).breedTimer + 1 ≥ cfg.fishBreed
    · left
      exact ⟨_, hdm, hb, by simp [stepFish, h, hb]⟩
    · right
      exact ⟨_, hdm, hb, by simp [stepFish, h, hb]⟩

/-- `stepShark` does exactly one of six things: die silently; eat and breed;
eat without breeding; move and breed; move without breeding; or stay in place
with decremented energy. -/
theorem stepShark_cases (current next : World) (row col : Int) (cfg : Config) (rnd : RandSrc) :
    ((current.cells row col).energy - 1 ≤ 0 ∧
      stepShark current next row col cfg rnd = (next, rnd)) ∨
    (¬((current.cells row col).energy - 1 ≤ 0) ∧
     ((∃ d, d ∈ sharkFishTargets current next row col ∧
        (current.cells row col).breedTimer + 1 ≥ cfg.sharkBreed ∧
        stepShark current next row col cfg rnd =
          ((next.set row col ⟨Entity.shark, 0, cfg.starve⟩).set d.1 d.2
            ⟨Entity.shark, 0, cfg.starve⟩,
           (rnd.intn (sharkFishTargets current next row col).length).2)) ∨
      (∃ d, d ∈ sharkFishTargets current next row col ∧
        ¬((current.cells row col).breedTimer + 1 ≥ cfg.sharkBreed) ∧
        stepShark current next row col cfg rnd =
          (next.set d.1 d.2
            ⟨Entity.shark, (current.cells row col).breedTimer + 1, cfg.starve⟩,
           (rnd.intn (sharkFishTargets current next row col).length).2)) ∨
      (sharkFishTargets current next row col = [] ∧
       ∃ d, d ∈ sharkEmptyTargets current next row col ∧
        (current.cells row col).breedTimer + 1 ≥ cfg.sharkBreed ∧
        stepShark current next row col cfg rnd =
          ((next.set row col ⟨Entity.shark, 0, cfg.starve⟩).set d.1 d.2
            ⟨Entity.shark, 0, (current.cells row col).energy - 1⟩,
           (rnd.intn (sharkEmptyTargets current next row col).length).2)) ∨
      (sharkFishTargets current next row col = [] ∧
       ∃ d, d ∈ sharkEmptyTargets current next row col ∧
        ¬((current.cells row col).breedTimer + 1 ≥ cfg.sharkBreed) ∧
        stepShark current next row col cfg rnd =
          (next.set d.1 d.2
            ⟨Entity.shark, (current.cells row col).breedTimer + 1,
             (current.cells row col).energy - 1⟩,
           (rnd.intn (sharkEmptyTargets current next row col).length).2)) ∨
      (sharkFishTargets current next row col = [] ∧
       sharkEmptyTargets current next row col = [] ∧
        stepShark current next row col cfg rnd =
          (next.set row col
            ⟨Entity.shark, (current.cells row col).breedTimer + 1,
             (current.cells row col).energy - 1⟩, rnd)))) := by
  by_cases hdead : (current.cells row col).energy - 1 ≤ 0
  · left
    exact ⟨hdead, by simp [stepShark, hdead]⟩
  · right
    refine ⟨hdead, ?_⟩
    by_cases hf : 0 < (sharkFishTargets current next row col).length
    · have hi : (rnd.intn (sharkFishTargets current next row col).length).1 <
          (sharkFishTargets current next row col).length := Nat.mod_lt _ hf
      have hdm : (sharkFishTargets current next row col).getD
          (rnd.intn (sharkFishTargets current next row col).length).1 (0, 0) ∈
          sharkFishTargets current next row col := getD_mem_of_pos _ _ _ hi
      by_cases hb : (current.cells row col).breedTimer + 1 ≥ cfg.sharkBreed
      · exact Or.inl ⟨_, hdm, hb, by simp [stepShark, hdead, hf, hb]⟩
      · exact Or.inr (Or.inl ⟨_, hdm, hb, by simp [stepShark, hdead, hf, hb]⟩)
    · have hfe : sharkFishTargets current next row col = [] :=
        List.length_eq_zero.mp (Nat.eq_zero_of_not_pos hf)
      by_cases he : 0 < (sharkEmptyTargets current next row col).length
      · have hi : (rnd.intn (sharkEmptyTargets current next row col).length).1 <
            (sharkEmptyTargets current next row col).length := Nat.mod_lt _ he
        have hdm : (sharkEmptyTargets current next row col).getD
            (rnd.intn (sharkEmptyTargets current next row col).length).1 (0, 0) ∈
            sharkEmptyTargets current next row col := getD_mem_of_pos _ _ _ hi
        by_cases hb : (current.cells row col).breedTimer + 1 ≥ cfg.sharkBreed
        · exact Or.inr (Or.inr (Or.inl ⟨hfe, _, hdm, hb, by
            simp [stepShark, hdead, hf, he, hb]⟩))
        · exact Or.inr (Or.inr (Or.inr (Or.inl ⟨hfe, _, hdm, hb, by
            simp [stepShark, hdead, hf, he, hb]⟩)))
      · have hee : sharkEmptyTargets current next row col = [] :=
          List.length_eq_zero.mp (Nat.eq_zero_of_not_pos he)
        exact Or.inr (Or.inr (Or.inr (Or.inr ⟨hfe, hee, by
          simp [stepShark, hdead, hf, he]⟩)))

/-! ## Changed-cell helpers -/

theorem changed_set_single {w : World} {r c : Int} {x : Cell} {q1 q2 : Int}
    (h : (w.set r c x).cells q1 q2 ≠ w.cells q1 q2) :
    q1 = r ∧ q2 = c ∧ (w.set r c x).cells q1 q2 = x := by
  by_cases hq : q1 = r ∧ q2 = c
  · exact ⟨hq.1, hq.2, by rw [cells_set, if_pos hq]⟩
  · exact absurd (cells_set_other w r c x q1 q2 hq) h

theorem changed_set_double {w : World} {r c rr cc : Int} {x y : Cell} {q1 q2 : Int}
    (h : ((w.set r c x).set rr cc y).cells q1 q2 ≠ w.cells q1 q2) :
    (q1 = rr ∧ q2 = cc ∧ ((w.set r c x).set rr cc y).cells q1 q2 = y) ∨
    (q1 = r ∧ q2 = c ∧ ¬(q1 = rr ∧ q2 = cc) ∧
      ((w.set r c x).set rr cc y).cells q1 q2 = x) := by
  by_cases hq2 : q1 = rr ∧ q2 = cc
  · exact Or.inl ⟨hq2.1, hq2.2, by rw [cells_set, if_pos hq2]⟩
  · rw [cells_set, if_neg hq2] at h ⊢
    obtain ⟨h1, h2, h3⟩ := changed_set_single h
    exact Or.inr ⟨h1, h2, hq2, h3⟩

/-! ## Claim C7: neighbors and toroidal wrap -/

/-- C7: for an in-range coordinate of a grid of side at least 2, `Neighbors`
returns exactly the four wrapped coordinates in the fixed order North, South,
West, East, all with both components in `[0, size)`; row `0` wraps to
`size-1`, row `size-1` wraps to `0`, and symmetrically for columns; `wrap`
maps every index within one step of range into `[0, size)` by adding or
subtracting `size` once. -/
theorem neighbors_wrap_spec (w : World) (row col : Int)
    (hs : 2 ≤ w.size)
    (hr1 : 0 ≤ row) (hr2 : row < (w.size : Int))
    (hc1 : 0 ≤ col) (hc2 : col < (w.size : Int)) :
    w.neighbors row col =
      [(w.wrap (row - 1), col), (w.wrap (row + 1), col),
       (row, w.wrap (col - 1)), (row, w.wrap (col + 1))] ∧
    (∀ n ∈ w.neighbors row col,
      0 ≤ n.1 ∧ n.1 < (w.size : Int) ∧ 0 ≤ n.2 ∧ n.2 < (w.size : Int)) ∧
    (row = 0 → ((w.size : Int) - 1, col) ∈ w.neighbors row col) ∧
    (row = (w.size : Int) - 1 → ((0 : Int), col) ∈ w.neighbors row col) ∧
    (col = 0 → (row, (w.size : Int) - 1) ∈ w.neighbors row col) ∧
    (col = (w.size : Int) - 1 → (row, (0 : Int)) ∈ w.neighbors row col) ∧
    (∀ i : Int, -1 ≤ i → i ≤ (w.size : Int) →
      0 ≤ w.wrap i ∧ w.wrap i < (w.size : Int) ∧
      (i < 0 → w.wrap i = i + w.size) ∧
      ((w.size : Int) ≤ i → w.wrap i = i - w.size) ∧
      (0 ≤ i → i < (w.size : Int) → w.wrap i = i)) := by
  refine ⟨rfl, ?_, ?_, ?_, ?_, ?_, ?_⟩
  · intro n hn
    exact mem_neighbors_range w row col n (by omega) hr1 hr2 hc1 hc2 hn
  · intro h; subst h
    have e1 : w.wrap (0 - 1) = (w.size : Int) - 1 := by
      unfold World.wrap; split
      · omega
      · split <;> omega
    simp only [World.neighbors, List.mem_cons]
    left; rw [e1]
  · intro h
    have e1 : w.wrap (row + 1) = 0 := by
      unfold World.wrap; split
      · omega
      · split <;> omega
    simp only [World.neighbors, List.mem_cons]
    right; left; rw [e1]
  · intro h; subst h
    have e1 : w.wrap (0 - 1) = (w.size : Int) - 1 := by
      unfold World.wrap; split
      · omega
      · split <;> omega
    simp only [World.neighbors, List.mem_cons]
    right; right; left; rw [e1]
  · intro h
    have e1 : w.wrap (col + 1) = 0 := by
      unfold World.wrap; split
      · omega
      · split <;> omega
    simp only [World.neighbors, List.mem_cons]
    right; right; right; left; rw [e1]
  · intro i h1 h2
    refine ⟨(wrap_bounds w i h1 h2 (by omega)).1, (wrap_bounds w i h1 h2 (by omega)).2,
      ?_, ?_, fun ha hb => wrap_eq_self w i ha hb⟩
    · intro hi; unfold World.wrap; rw [if_pos hi]
    · intro hi; unfold World.wrap
      rw [if_neg (by omega), if_pos (by omega)]

/-- Witness for C7 at a concrete 3x3 grid: row 0 wraps to row `size - 1`. -/
theorem neighbors_wrap_spec_witness :
    (((newWorld ⟨1, 1, 3, 3, 4, 3, 1, 0, 1⟩).size : Int) - 1, (0 : Int)) ∈
      (newWorld ⟨1, 1, 3, 3, 4, 3, 1, 0, 1⟩).neighbors 0 0 :=
  (neighbors_wrap_spec (newWorld ⟨1, 1, 3, 3, 4, 3, 1, 0, 1⟩) 0 0
    (by decide) (by decide) (by decide) (by decide) (by decide)).2.2.1 rfl

/-! ## Claim C5: determinism of the step engine -/

/-- C5: the step engine is a pure function of its world, configuration, and
random-source arguments: two runs on equal inputs produce identical next
generations (no hidden source of randomness). -/
theorem stepWorld_deterministic (w1 w2 : World) (cfg1 cfg2 : Config)
    (r1 r2 : RandSrc) (hw : w1 = w2) (hc : cfg1 = cfg2) (hr : r1 = r2) :
    stepWorld w1 cfg1 r1 = stepWorld w2 cfg2 r2 := by
  subst hw; subst hc; subst hr; rfl

/-- Witness for C5 at a concrete world, configuration and seed. -/
theorem stepWorld_deterministic_witness :
    stepWorld (newWorld ⟨1, 1, 3, 3, 4, 3, 1, 0, 1⟩) ⟨1, 1, 3, 3, 4, 3, 1, 0, 1⟩ (fun _ => 0) =
    stepWorld (newWorld ⟨1, 1, 3, 3, 4, 3, 1, 0, 1⟩) ⟨1, 1, 3, 3, 4, 3, 1, 0, 1⟩ (fun _ => 0) :=
  stepWorld_deterministic _ _ _ _ _ _ rfl rfl rfl

/-! ## Claim C4: shark starvation and energy decrement -/

/-- C4: a shark whose energy after the decrement is `≤ 0` writes nothing (the
next world is returned unchanged, so the shark is absent from the next
generation at every coordinate); a surviving shark that neither eats (no fish
target) nor breeds (below threshold, or unable to move at all) is written at
exactly one coordinate, with energy exactly its previous energy minus 1, and
every other coordinate of the next grid is untouched by it. -/
theorem shark_starves_or_decrements (current next : World) (row col : Int)
    (cfg : Config) (rnd : RandSrc) :
    ((current.cells row col).energy - 1 ≤ 0 →
      stepShark current next row col cfg rnd = (next, rnd)) ∧
    (¬((current.cells row col).energy - 1 ≤ 0) →
     sharkFishTargets current next row col = [] →
     (¬((current.cells row col).breedTimer + 1 ≥ cfg.sharkBreed) ∨
      sharkEmptyTargets current next row col = []) →
     ∃ d : Int × Int,
       (stepShark current next row col cfg rnd).1.cells d.1 d.2 =
         ⟨Entity.shark, (current.cells row col).breedTimer + 1,
          (current.cells row col).energy - 1⟩ ∧
       ∀ q1 q2 : Int, ¬(q1 = d.1 ∧ q2 = d.2) →
         (stepShark current next row col cfg rnd).1.cells q1 q2 = next.cells q1 q2) := by
  constructor
  · intro hdead
    rcases stepShark_cases current next row col cfg rnd with ⟨_, he⟩ | ⟨hal, _⟩
    · exact he
    · exact absurd hdead hal
  · intro halive hnofish hnb
    rcases stepShark_cases current next row col cfg rnd with ⟨hdead, _⟩ | ⟨_, hc⟩
    · exact absurd hdead halive
    rcases hc with ⟨d, hd, _, _⟩ | ⟨d, hd, _, _⟩ | ⟨_, d, hd, hb, _⟩ |
      ⟨_, d, hd, hb, he⟩ | ⟨_, hemp, he⟩
    · rw [hnofish] at hd; exact absurd hd (List.not_mem_nil d)
    · rw [hnofish] at hd; exact absurd hd (List.not_mem_nil d)
    · rcases hnb with hnb | hnb
      · exact absurd hb hnb
      · rw [hnb] at hd; exact absurd hd (List.not_mem_nil d)
    · refine ⟨d, ?_, ?_⟩
      · rw [he]; exact cells_set_same _ _ _ _
      · intro q1 q2 hq; rw [he]; exact cells_set_other _ _ _ _ _ _ hq
    · refine ⟨(row, col), ?_, ?_⟩
      · rw [he]; exact cells_set_same _ _ _ _
      · intro q1 q2 hq; rw [he]; exact cells_set_other _ _ _ _ _ _ hq

/-- Witness for C4: a cornered shark with energy 5 (no fish, surrounded by
sharks in the next grid) survives with energy 4; a shark with energy 1 writes
nothing. Uses a concrete 3x3 world. -/
theorem shark_starves_or_decrements_witness :
    (stepShark
      { size := 3, cells := fun i j => if i = 0 ∧ j = 0 then ⟨Entity.shark, 0, 1⟩ else emptyCell
        fishBreed := 3, sharkBreed := 3, starve := 4 }
      (newEmptyWorldLike
        { size := 3, cells := fun i j => if i = 0 ∧ j = 0 then ⟨Entity.shark, 0, 1⟩ else emptyCell
          fishBreed := 3, sharkBreed := 3, starve := 4 })
      0 0 ⟨1, 1, 3, 3, 4, 3, 1, 0, 1⟩ (fun _ => 0) =
      (newEmptyWorldLike
        { size := 3, cells := fun i j => if i = 0 ∧ j = 0 then ⟨Entity.shark, 0, 1⟩ else emptyCell
          fishBreed := 3, sharkBreed := 3, starve := 4 }, fun _ => 0)) ∧
    (∃ d : Int × Int,
      (stepShark
        { size := 3, cells := fun i j => if i = 0 ∧ j = 0 then ⟨Entity.shark, 0, 5⟩ else emptyCell
          fishBreed := 3, sharkBreed := 3, starve := 4 }
        (newEmptyWorldLike
          { size := 3, cells := fun i j => if i = 0 ∧ j = 0 then ⟨Entity.shark, 0, 5⟩ else emptyCell
            fishBreed := 3, sharkBreed := 3, starve := 4 })
        0 0 ⟨1, 1, 3, 3, 4, 3, 1, 0, 1⟩ (fun _ => 0)).1.cells d.1 d.2 =
        ⟨Entity.shark, 0 + 1, 5 - 1⟩ ∧
      ∀ q1 q2 : Int, ¬(q1 = d.1 ∧ q2 = d.2) →
        (stepShark
          { size := 3, cells := fun i j => if i = 0 ∧ j = 0 then ⟨Entity.shark, 0, 5⟩ else emptyCell
            fishBreed := 3, sharkBreed := 3, starve := 4 }
          (newEmptyWorldLike
            { size := 3, cells := fun i j => if i = 0 ∧ j = 0 then ⟨Entity.shark, 0, 5⟩ else emptyCell
              fishBreed := 3, sharkBreed := 3, starve := 4 })
          0 0 ⟨1, 1, 3, 3, 4, 3, 1, 0, 1⟩ (fun _ => 0)).1.cells q1 q2 =
          (newEmptyWorldLike
            { size := 3, cells := fun i j => if i = 0 ∧ j = 0 then ⟨Entity.shark, 0, 5⟩ else emptyCell
              fishBreed := 3, sharkBreed := 3, starve := 4 }).cells q1 q2) := by
  constructor
  · exact (shark_starves_or_decrements _ _ 0 0 _ _).1 (by decide)
  · exact (shark_starves_or_decrements _ _ 0 0 _ _).2 (by decide) (by decide)
      (Or.inl (by decide))

/-! ## Claim C1: shark breeding writes -/

/-- Concrete scenario: a shark at (0,0) with breed timer 0 and energy 5 next
to a fish at (0,1); `sharkBreed = 1` so it breeds on this chronon. -/
def cexSharkEatWorld : World :=
  { size := 3
    cells := fun i j =>
      if i = 0 ∧ j = 0 then ⟨Entity.shark, 0, 5⟩
      else if i = 0 ∧ j = 1 then ⟨Entity.fish, 0, 0⟩
      else emptyCell
    fishBreed := 3, sharkBreed := 1, starve := 4 }

/-- Concrete scenario: a lone shark at (0,0) with breed timer 0 and energy 7;
`sharkBreed = 1` so it breeds while moving to an empty neighbor. -/
def cexSharkMoveWorld : World :=
  { size := 3
    cells := fun i j =>
      if i = 0 ∧ j = 0 then ⟨Entity.shark, 0, 7⟩
      else emptyCell
    fishBreed := 3, sharkBreed := 1, starve := 4 }

def cexSharkCfg : Config := ⟨1, 1, 3, 1, 4, 3, 1, 0, 1⟩

/-- C1 fails on the code: in both breeding branches the offspring written at
the origin receives the full `starve` energy (4), not `starve / 2` (= 2) in
the eat branch and not `newEnergy / 2` (= 3) in the empty-move branch. -/
theorem shark_offspring_energy_counterexample :
    (((stepShark cexSharkEatWorld (newEmptyWorldLike cexSharkEatWorld) 0 0
        cexSharkCfg (fun _ => 0)).1.cells 0 0) = ⟨Entity.shark, 0, 4⟩ ∧
      ((stepShark cexSharkEatWorld (newEmptyWorldLike cexSharkEatWorld) 0 0
        cexSharkCfg (fun _ => 0)).1.cells 0 1) = ⟨Entity.shark, 0, 4⟩ ∧
      (4 : Int) ≠ cexSharkCfg.starve / 2) ∧
    (((stepShark cexSharkMoveWorld (newEmptyWorldLike cexSharkMoveWorld) 0 0
        cexSharkCfg (fun _ => 0)).1.cells 0 0) = ⟨Entity.shark, 0, 4⟩ ∧
      ((stepShark cexSharkMoveWorld (newEmptyWorldLike cexSharkMoveWorld) 0 0
        cexSharkCfg (fun _ => 0)).1.cells 2 0) = ⟨Entity.shark, 0, 6⟩ ∧
      (4 : Int) ≠ ((cexSharkMoveWorld.cells 0 0).energy - 1) / 2) := by
  decide

/-- C1 (amended): when a shark breeds and moves this chronon (alive after the
energy decrement, breed timer at threshold): if it eats a fish neighbor, the
offspring at the origin and the parent at the destination are both written
with `energy = starve` and `breedTimer = 0`; if instead it moves to an empty
neighbor, the offspring at the origin is written with `energy = starve` and
the parent at the destination with `energy = newEnergy = energy - 1`, both
with `breedTimer = 0`. -/
theorem shark_breed_writes (current next : World) (row col : Int)
    (cfg : Config) (rnd : RandSrc)
    (halive : ¬((current.cells row col).energy - 1 ≤ 0))
    (hb : (current.cells row col).breedTimer + 1 ≥ cfg.sharkBreed) :
    (sharkFishTargets current next row col ≠ [] →
      ∃ d, d ∈ sharkFishTargets current next row col ∧
        stepShark current next row col cfg rnd =
          ((next.set row col ⟨Entity.shark, 0, cfg.starve⟩).set d.1 d.2
             ⟨Entity.shark, 0, cfg.starve⟩,
           (rnd.intn (sharkFishTargets current next row col).length).2)) ∧
    (sharkFishTargets current next row col = [] →
     sharkEmptyTargets current next row col ≠ [] →
      ∃ d, d ∈ sharkEmptyTargets current next row col ∧
        stepShark current next row col cfg rnd =
          ((next.set row col ⟨Entity.shark, 0, cfg.starve⟩).set d.1 d.2
             ⟨Entity.shark, 0, (current.cells row col).energy - 1⟩,
           (rnd.intn (sharkEmptyTargets current next row col).length).2)) := by
  rcases stepShark_cases current next row col cfg rnd with ⟨hdead, _⟩ | ⟨_, hc⟩
  · exact absurd hdead halive
  constructor
  · intro hfne
    rcases hc with ⟨d, hd, _, he⟩ | ⟨d, hd, hnb, _⟩ | ⟨hfe, _⟩ | ⟨hfe, _⟩ | ⟨hfe, _⟩
    · exact ⟨d, hd, he⟩
    · exact absurd hb hnb
    · exact absurd hfe hfne
    · exact absurd hfe hfne
    · exact absurd hfe hfne
  · intro hfe hene
    rcases hc with ⟨d, hd, _, _⟩ | ⟨d, hd, _, _⟩ | ⟨_, d, hd, _, he⟩ |
      ⟨_, d, hd, hnb, _⟩ | ⟨_, hee, _⟩
    · rw [hfe] at hd; exact absurd hd (List.not_mem_nil d)
    · rw [hfe] at hd; exact absurd hd (List.not_mem_nil d)
    · exact ⟨d, hd, he⟩
    · exact absurd hb hnb
    · exact absurd hee hene

/-- Witness for C1 (amended) at the two concrete breeding scenarios. -/
theorem shark_breed_writes_witness :
    (∃ d, d ∈ sharkFishTargets cexSharkEatWorld (newEmptyWorldLike cexSharkEatWorld) 0 0 ∧
      stepShark cexSharkEatWorld (newEmptyWorldLike cexSharkEatWorld) 0 0
          cexSharkCfg (fun _ => 0) =
        (((newEmptyWorldLike cexSharkEatWorld).set 0 0
            ⟨Entity.shark, 0, cexSharkCfg.starve⟩).set d.1 d.2
           ⟨Entity.shark, 0, cexSharkCfg.starve⟩,
         (RandSrc.intn (fun _ => 0)
           (sharkFishTargets cexSharkEatWorld
             (newEmptyWorldLike cexSharkEatWorld) 0 0).length).2)) ∧
    (∃ d, d ∈ sharkEmptyTargets cexSharkMoveWorld (newEmptyWorldLike cexSharkMoveWorld) 0 0 ∧
      stepShark cexSharkMoveWorld (newEmptyWorldLike cexSharkMoveWorld) 0 0
          cexSharkCfg (fun _ => 0) =
        (((newEmptyWorldLike cexSharkMoveWorld).set 0 0
            ⟨Entity.shark, 0, cexSharkCfg.starve⟩).set d.1 d.2
           ⟨Entity.shark, 0, (cexSharkMoveWorld.cells 0 0).energy - 1⟩,
         (RandSrc.intn (fun _ => 0)
           (sharkEmptyTargets cexSharkMoveWorld
             (newEmptyWorldLike cexSharkMoveWorld) 0 0).length).2)) :=
  ⟨(shark_breed_writes cexSharkEatWorld (newEmptyWorldLike cexSharkEatWorld) 0 0
      cexSharkCfg (fun _ => 0) (by decide) (by decide)).1 (by decide),
   (shark_breed_writes cexSharkMoveWorld (newEmptyWorldLike cexSharkMoveWorld) 0 0
      cexSharkCfg (fun _ => 0) (by decide) (by decide)).2 (by decide) (by decide)⟩

/-! ## Claim C3: fish rule -/

/-- The candidate set exactly as the spec sentence words it: neighbor
coordinates whose *current* cell is `Empty` (without the next-grid
restriction the code applies). Stated only for comparison with
`fishEmptySpots`. -/
def specFishCandidates (current : World) (row col : Int) : List (Int × Int) :=
  (current.neighbors row col).filter (fun n =>
    (current.cells n.1 n.2).entity == Entity.empty)

/-- A fish at (0,0) with breed timer 0; everything else empty in the current
world. -/
def cexFishWorld : World :=
  { size := 3
    cells := fun i j => if i = 0 ∧ j = 0 then ⟨Entity.fish, 0, 0⟩ else emptyCell
    fishBreed := 3, sharkBreed := 3, starve := 4 }

/-- A next grid in which all four neighbors of (0,0) have already been
written (fish with breed timer 7), as can happen mid-step. -/
def cexFishNext : World :=
  { size := 3
    cells := fun i j =>
      if (i = 2 ∧ j = 0) ∨ (i = 1 ∧ j = 0) ∨ (i = 0 ∧ j = 2) ∨ (i = 0 ∧ j = 1)
      then ⟨Entity.fish, 7, 0⟩ else emptyCell
    fishBreed := 3, sharkBreed := 3, starve := 4 }

/-- C3 fails on the code: the fish at (0,0) has four current-empty neighbors
(the claim's candidate set is nonempty, so under the claim the fish would
move, leaving the origin empty or holding a timer-0 offspring), yet the code
finds no candidate empty in both grids, stays in place, and writes itself at
the origin with breed timer 1; no neighbor cell is touched. -/
theorem fish_candidates_counterexample :
    specFishCandidates cexFishWorld 0 0 ≠ [] ∧
    (stepFish cexFishWorld cexFishNext 0 0 ⟨1, 1, 3, 3, 4, 3, 1, 0, 1⟩
        (fun _ => 0)).1.cells 0 0 = ⟨Entity.fish, 1, 0⟩ ∧
    (stepFish cexFishWorld cexFishNext 0 0 ⟨1, 1, 3, 3, 4, 3, 1, 0, 1⟩
        (fun _ => 0)).1.cells 2 0 = ⟨Entity.fish, 7, 0⟩ ∧
    (stepFish cexFishWorld cexFishNext 0 0 ⟨1, 1, 3, 3, 4, 3, 1, 0, 1⟩
        (fun _ => 0)).1.cells 1 0 = ⟨Entity.fish, 7, 0⟩ ∧
    (stepFish cexFishWorld cexFishNext 0 0 ⟨1, 1, 3, 3, 4, 3, 1, 0, 1⟩
        (fun _ => 0)).1.cells 0 2 = ⟨Entity.fish, 7, 0⟩ ∧
    (stepFish cexFishWorld cexFishNext 0 0 ⟨1, 1, 3, 3, 4, 3, 1, 0, 1⟩
        (fun _ => 0)).1.cells 0 1 = ⟨Entity.fish, 7, 0⟩ := by
  decide

/-- C3 (amended): a fish's move candidates are the neighbors empty in *both*
the current and the next grid. With no candidate it is written at its own
coordinate with its timer incremented; otherwise one candidate is selected by
the random draw and the breed/no-breed split follows the claim, the origin
being left untouched (empty) in the no-breed move. -/
theorem fish_step_spec (current next : World) (row col : Int)
    (cfg : Config) (rnd : RandSrc) :
    (fishEmptySpots current next row col = [] →
      stepFish current next row col cfg rnd =
        (next.set row col ⟨Entity.fish, (current.cells row col).breedTimer + 1, 0⟩, rnd)) ∧
    (fishEmptySpots current next row col ≠ [] →
      ∃ d, d ∈ fishEmptySpots current next row col ∧
        ((current.cells row col).breedTimer + 1 ≥ cfg.fishBreed →
          stepFish current next row col cfg rnd =
            ((next.set row col ⟨Entity.fish, 0, 0⟩).set d.1 d.2 ⟨Entity.fish, 0, 0⟩,
             (rnd.intn (fishEmptySpots current next row col).length).2)) ∧
        (¬((current.cells row col).breedTimer + 1 ≥ cfg.fishBreed) →
          stepFish current next row col cfg rnd =
            (next.set d.1 d.2 ⟨Entity.fish, (current.cells row col).breedTimer + 1, 0⟩,
             (rnd.intn (fishEmptySpots current next row col).length).2) ∧
          (¬(row = d.1 ∧ col = d.2) →
            (stepFish current next row col cfg rnd).1.cells row col =
              next.cells row col))) := by
  rcases stepFish_cases current next row col cfg rnd with ⟨hce, he⟩ |
    ⟨d, hd, hb, he⟩ | ⟨d, hd, hnb, he⟩
  · refine ⟨fun _ => he, fun hne => absurd hce hne⟩
  · refine ⟨fun hce => ?_, fun _ => ⟨d, hd, fun _ => he, fun hnb => absurd hb hnb⟩⟩
    rw [hce] at hd; exact absurd hd (List.not_mem_nil d)
  · refine ⟨fun hce => ?_, fun _ => ⟨d, hd, fun hb => absurd hb hnb, fun _ => ⟨he, ?_⟩⟩⟩
    · rw [hce] at hd; exact absurd hd (List.not_mem_nil d)
    · intro hq; rw [he]; exact cells_set_other _ _ _ _ _ _ hq

/-- Witness for C3 (amended): a lone fish on an otherwise empty 3x3 grid has
four candidates and moves. -/
theorem fish_step_spec_witness :
    ∃ d, d ∈ fishEmptySpots cexFishWorld (newEmptyWorldLike cexFishWorld) 0 0 ∧
      ((cexFishWorld.cells 0 0).breedTimer + 1 ≥ (3 : Int) →
        stepFish cexFishWorld (newEmptyWorldLike cexFishWorld) 0 0
            ⟨1, 1, 3, 3, 4, 3, 1, 0, 1⟩ (fun _ => 0) =
          (((newEmptyWorldLike cexFishWorld).set 0 0 ⟨Entity.fish, 0, 0⟩).set d.1 d.2
             ⟨Entity.fish, 0, 0⟩,
           (RandSrc.intn (fun _ => 0)
             (fishEmptySpots cexFishWorld (newEmptyWorldLike cexFishWorld) 0 0).length).2)) ∧
      (¬((cexFishWorld.cells 0 0).breedTimer + 1 ≥ (3 : Int)) →
        stepFish cexFishWorld (newEmptyWorldLike cexFishWorld) 0 0
            ⟨1, 1, 3, 3, 4, 3, 1, 0, 1⟩ (fun _ => 0) =
          ((newEmptyWorldLike cexFishWorld).set d.1 d.2
             ⟨Entity.fish, (cexFishWorld.cells 0 0).breedTimer + 1, 0⟩,
           (RandSrc.intn (fun _ => 0)
             (fishEmptySpots cexFishWorld (newEmptyWorldLike cexFishWorld) 0 0).length).2) ∧
          (¬((0 : Int) = d.1 ∧ (0 : Int) = d.2) →
            (stepFish cexFishWorld (newEmptyWorldLike cexFishWorld) 0 0
                ⟨1, 1, 3, 3, 4, 3, 1, 0, 1⟩ (fun _ => 0)).1.cells 0 0 =
              (newEmptyWorldLike cexFishWorld).cells 0 0)) :=
  (fish_step_spec cexFishWorld (newEmptyWorldLike cexFishWorld) 0 0
    ⟨1, 1, 3, 3, 4, 3, 1, 0, 1⟩ (fun _ => 0)).2 (by decide)

/-! ## Claim C8: breed-timer discipline of every write -/

/-- C8: any cell a fish or shark writes into the next grid with
`breedTimer = 0` comes from an entity at breeding threshold
(`oldBreedTimer + 1 ≥ breed`), and every write that does not reset the timer
carries exactly `oldBreedTimer + 1` (assuming the previous timer was
non-negative, as in every reachable world). -/
theorem breedTimer_reset_iff_bred (current next : World) (row col : Int)
    (cfg : Config) (rnd : RandSrc) (q1 q2 : Int)
    (hbt : 0 ≤ (current.cells row col).breedTimer) :
    ((stepFish current next row col cfg rnd).1.cells q1 q2 ≠ next.cells q1 q2 →
      (((stepFish current next row col cfg rnd).1.cells q1 q2).breedTimer = 0 →
        (current.cells row col).breedTimer + 1 ≥ cfg.fishBreed) ∧
      (((stepFish current next row col cfg rnd).1.cells q1 q2).breedTimer ≠ 0 →
        ((stepFish current next row col cfg rnd).1.cells q1 q2).breedTimer =
          (current.cells row col).breedTimer + 1)) ∧
    ((stepShark current next row col cfg rnd).1.cells q1 q2 ≠ next.cells q1 q2 →
      (((stepShark current next row col cfg rnd).1.cells q1 q2).breedTimer = 0 →
        (current.cells row col).breedTimer + 1 ≥ cfg.sharkBreed) ∧
      (((stepShark current next row col cfg rnd).1.cells q1 q2).breedTimer ≠ 0 →
        ((stepShark current next row col cfg rnd).1.cells q1 q2).breedTimer =
          (current.cells row col).breedTimer + 1)) := by
  constructor
  · intro hch
    rcases stepFish_cases current next row col cfg rnd with ⟨_, he⟩ |
      ⟨d, hd, hb, he⟩ | ⟨d, hd, hnb, he⟩
    · rw [he] at hch ⊢
      obtain ⟨_, _, hv⟩ := changed_set_single hch
      rw [hv]
      exact ⟨fun h0 => absurd h0 (by simp; omega), fun _ => rfl⟩
    · rw [he] at hch ⊢
      rcases changed_set_double hch with ⟨_, _, hv⟩ | ⟨_, _, _, hv⟩ <;>
        rw [hv] <;> exact ⟨fun _ => hb, fun hn => absurd rfl hn⟩
    · rw [he] at hch ⊢
      obtain ⟨_, _, hv⟩ := changed_set_single hch
      rw [hv]
      exact ⟨fun h0 => absurd h0 (by simp; omega), fun _ => rfl⟩
  · intro hch
    rcases stepShark_cases current next row col cfg rnd with ⟨_, he⟩ | ⟨_, hc⟩
    · rw [he] at hch; exact absurd rfl hch
    rcases hc with ⟨d, hd, hb, he⟩ | ⟨d, hd, hnb, he⟩ | ⟨_, d, hd, hb, he⟩ |
      ⟨_, d, hd, hnb, he⟩ | ⟨_, _, he⟩
    · rw [he] at hch ⊢
      rcases changed_set_double hch with ⟨_, _, hv⟩ | ⟨_, _, _, hv⟩ <;>
        rw [hv] <;> exact ⟨fun _ => hb, fun hn => absurd rfl hn⟩
    · rw [he] at hch ⊢
      obtain ⟨_, _, hv⟩ := changed_set_single hch
      rw [hv]
      exact ⟨fun h0 => absurd h0 (by simp; omega), fun _ => rfl⟩
    · rw [he] at hch ⊢
      rcases changed_set_double hch with ⟨_, _, hv⟩ | ⟨_, _, _, hv⟩ <;>
        rw [hv] <;> exact ⟨fun _ => hb, fun hn => absurd rfl hn⟩
    · rw [he] at hch ⊢
      obtain ⟨_, _, hv⟩ := changed_set_single hch
      rw [hv]
      exact ⟨fun h0 => absurd h0 (by simp; omega), fun _ => rfl⟩
    · rw [he] at hch ⊢
      obtain ⟨_, _, hv⟩ := changed_set_single hch
      rw [hv]
      exact ⟨fun h0 => absurd h0 (by simp; omega), fun _ => rfl⟩

/-- Witness for C8 at a concrete moving fish (timer 0, below threshold):
the written destination carries timer 1. -/
theorem breedTimer_reset_iff_bred_witness :
    ((stepFish cexFishWorld (newEmptyWorldLike cexFishWorld) 0 0
        ⟨1, 1, 3, 3, 4, 3, 1, 0, 1⟩ (fun _ => 0)).1.cells 2 0 ≠
      (newEmptyWorldLike cexFishWorld).cells 2 0) ∧
    (((stepFish cexFishWorld (newEmptyWorldLike cexFishWorld) 0 0
        ⟨1, 1, 3, 3, 4, 3, 1, 0, 1⟩ (fun _ => 0)).1.cells 2 0).breedTimer ≠ 0 →
      ((stepFish cexFishWorld (newEmptyWorldLike cexFishWorld) 0 0
        ⟨1, 1, 3, 3, 4, 3, 1, 0, 1⟩ (fun _ => 0)).1.cells 2 0).breedTimer =
        (cexFishWorld.cells 0 0).breedTimer + 1) :=
  ⟨by decide,
   ((breedTimer_reset_iff_bred cexFishWorld (newEmptyWorldLike cexFishWorld) 0 0
      ⟨1, 1, 3, 3, 4, 3, 1, 0, 1⟩ (fun _ => 0) 2 0 (by decide)).1 (by decide)).2⟩

/-! ## Claim C9: candidate restriction and conflict-free writes -/

/-- C9: each candidate list is the corresponding current-grid candidate list
additionally restricted to cells still empty in the next grid, and every cell
a fish or shark changes in the next grid (the origin included, which the
step loop guarantees empty) was empty in the next grid before the write — no
move, breed destination, or eat ever lands on an already-written cell. -/
theorem writes_land_on_empty (current next : World) (row col : Int)
    (cfg : Config) (rnd : RandSrc) (q1 q2 : Int)
    (horig : (next.cells row col).entity = Entity.empty) :
    (fishEmptySpots current next row col =
      (specFishCandidates current row col).filter
        (fun n => (next.cells n.1 n.2).entity == Entity.empty)) ∧
    (sharkFishTargets current next row col =
      ((current.neighbors row col).filter
        (fun n => (current.cells n.1 n.2).entity == Entity.fish)).filter
        (fun n => (next.cells n.1 n.2).entity == Entity.empty)) ∧
    (sharkEmptyTargets current next row col =
      (specFishCandidates current row col).filter
        (fun n => (next.cells n.1 n.2).entity == Entity.empty)) ∧
    ((stepFish current next row col cfg rnd).1.cells q1 q2 ≠ next.cells q1 q2 →
      (next.cells q1 q2).entity = Entity.empty) ∧
    ((stepShark current next row col cfg rnd).1.cells q1 q2 ≠ next.cells q1 q2 →
      (next.cells q1 q2).entity = Entity.empty) := by
  refine ⟨?_, ?_, ?_, ?_, ?_⟩
  · rw [specFishCandidates, List.filter_filter]
    exact (List.filter_congr (fun a _ => by rw [Bool.and_comm])).symm
  · rw [List.filter_filter]
    exact (List.filter_congr (fun a _ => by rw [Bool.and_comm])).symm
  · rw [specFishCandidates, List.filter_filter]
    exact (List.filter_congr (fun a _ => by rw [Bool.and_comm])).symm
  · intro hch
    rcases stepFish_cases current next row col cfg rnd with ⟨_, he⟩ |
      ⟨d, hd, _, he⟩ | ⟨d, hd, _, he⟩
    · rw [he] at hch
      obtain ⟨h1, h2, _⟩ := changed_set_single hch
      rw [h1, h2]; exact horig
    · rw [he] at hch
      rcases changed_set_double hch with ⟨h1, h2, _⟩ | ⟨h1, h2, _, _⟩
      · rw [h1, h2]; exact ((mem_fishEmptySpots _ _ _ _ _).mp hd).2.2
      · rw [h1, h2]; exact horig
    · rw [he] at hch
      obtain ⟨h1, h2, _⟩ := changed_set_single hch
      rw [h1, h2]; exact ((mem_fishEmptySpots _ _ _ _ _).mp hd).2.2
  · intro hch
    rcases stepShark_cases current next row col cfg rnd with ⟨_, he⟩ | ⟨_, hc⟩
    · rw [he] at hch; exact absurd rfl hch
    rcases hc with ⟨d, hd, _, he⟩ | ⟨d, hd, _, he⟩ | ⟨_, d, hd, _, he⟩ |
      ⟨_, d, hd, _, he⟩ | ⟨_, _, he⟩
    · rw [he] at hch
      rcases changed_set_double hch with ⟨h1, h2, _⟩ | ⟨h1, h2, _, _⟩
      · rw [h1, h2]; exact ((mem_sharkFishTargets _ _ _ _ _).mp hd).2.2
      · rw [h1, h2]; exact horig
    · rw [he] at hch
      obtain ⟨h1, h2, _⟩ := changed_set_single hch
      rw [h1, h2]; exact ((mem_sharkFishTargets _ _ _ _ _).mp hd).2.2
    · rw [he] at hch
      rcases changed_set_double hch with ⟨h1, h2, _⟩ | ⟨h1, h2, _, _⟩
      · rw [h1, h2]; exact ((mem_sharkEmptyTargets _ _ _ _ _).mp hd).2.2
      · rw [h1, h2]; exact horig
    · rw [he] at hch
      obtain ⟨h1, h2, _⟩ := changed_set_single hch
      rw [h1, h2]; exact ((mem_sharkEmptyTargets _ _ _ _ _).mp hd).2.2
    · rw [he] at hch
      obtain ⟨h1, h2, _⟩ := changed_set_single hch
      rw [h1, h2]; exact horig

/-- Witness for C9: the restriction equations at the concrete mid-step state
of the C3 scenario (all four neighbors already written in the next grid). -/
theorem writes_land_on_empty_witness :
    fishEmptySpots cexFishWorld cexFishNext 1 1 =
      (specFishCandidates cexFishWorld 1 1).filter
        (fun n => (cexFishNext.cells n.1 n.2).entity == Entity.empty) :=
  (writes_land_on_empty cexFishWorld cexFishNext 1 1
    ⟨1, 1, 3, 3, 4, 3, 1, 0, 1⟩ (fun _ => 0) 0 0 (by decide)).1

/-! ## Populate: grid characterization -/

theorem populateSharks_size (w : World) (l : List (Int × Int)) (n : Nat) :
    (populateSharks w l n).size = w.size := by
  induction l generalizing w n with
  | nil => cases n <;> rfl
  | cons p rest ih =>
    cases n with
    | zero => rfl
    | succ m => rw [populateSharks, ih]; rfl

theorem populateSharks_starve (w : World) (l : List (Int × Int)) (n : Nat) :
    (populateSharks w l n).starve = w.starve := by
  induction l generalizing w n with
  | nil => cases n <;> rfl
  | cons p rest ih =>
    cases n with
    | zero => rfl
    | succ m => rw [populateSharks, ih]; rfl

theorem populateFish_size (w : World) (l : List (Int × Int)) (n : Nat) :
    (populateFish w l n).size = w.size := by
  induction l generalizing w n with
  | nil => cases n <;> rfl
  | cons p rest ih =>
    cases n with
    | zero => rfl
    | succ m =>
      rw [populateFish, ih]
      split <;> rfl

theorem populateFish_starve (w : World) (l : List (Int × Int)) (n : Nat) :
    (populateFish w l n).starve = w.starve := by
  induction l generalizing w n with
  | nil => cases n <;> rfl
  | cons p rest ih =>
    cases n with
    | zero => rfl
    | succ m =>
      rw [populateFish, ih]
      split <;> rfl

theorem populateSharks_cells (l : List (Int × Int)) (w : World) (n : Nat) (q1 q2 : Int) :
    (populateSharks w l n).cells q1 q2 =
      if (q1, q2) ∈ l.take n then ⟨Entity.shark, 0, w.starve⟩ else w.cells q1 q2 := by
  induction l generalizing w n with
  | nil =>
    cases n <;> simp [populateSharks]
  | cons p rest ih =>
    cases n with
    | zero => simp [populateSharks]
    | succ m =>
      rw [populateSharks, ih, starve_set]
      by_cases hmem : (q1, q2) ∈ rest.take m
      · rw [if_pos hmem, if_pos (by simp [List.take_succ_cons, hmem])]
      · rw [if_neg hmem]
        by_cases hp : (q1, q2) = p
        · have hp1 : q1 = p.1 := congrArg Prod.fst hp
          have hp2 : q2 = p.2 := congrArg Prod.snd hp
          rw [if_pos (by simp [List.take_succ_cons, hp]), hp1, hp2, cells_set_same]
        · rw [if_neg (by simp [List.take_succ_cons, hmem, hp]),
            cells_set_other _ _ _ _ _ _ (by
              intro ⟨ha, hb⟩; exact hp (Prod.ext ha hb))]

theorem populateFish_cells (l : List (Int × Int)) (hnd : l.Nodup) (w : World) (n : Nat)
    (q1 q2 : Int) :
    (populateFish w l n).cells q1 q2 =
      if (q1, q2) ∈ l.take n ∧ (w.cells q1 q2).entity = Entity.empty
      then ⟨Entity.fish, 0, (w.cells q1 q2).energy⟩ else w.cells q1 q2 := by
  induction l generalizing w n with
  | nil =>
    cases n <;> simp [populateFish]
  | cons p rest ih =>
    cases n with
    | zero => simp [populateFish]
    | succ m =>
      rw [populateFish, ih (List.Nodup.of_cons hnd)]
      by_cases hp : (q1, q2) = p
      · have hp1 : q1 = p.1 := congrArg Prod.fst hp
        have hp2 : q2 = p.2 := congrArg Prod.snd hp
        have hnr : (q1, q2) ∉ rest := hp ▸ (List.nodup_cons.mp hnd).1
        have hnrt : (q1, q2) ∉ rest.take m := fun h => hnr (List.mem_of_mem_take h)
        rw [if_neg (fun hc => hnrt hc.1)]
        by_cases hemp : (w.cells p.1 p.2).entity = Entity.empty
        · rw [if_pos (by simp [hemp]), if_pos ⟨by simp [List.take_succ_cons, hp], by
            rw [hp1, hp2]; exact hemp⟩]
          rw [hp1, hp2, cells_set_same]
        · rw [if_neg (by simp [hemp])]
          rw [if_neg (fun hc => by rw [hp1, hp2] at hc; exact hemp hc.2)]
    -- q ≠ p
      · have hcells : (if (w.cells p.1 p.2).entity == Entity.empty
            then w.set p.1 p.2 ⟨Entity.fish, 0, (w.cells p.1 p.2).energy⟩
            else w).cells q1 q2 = w.cells q1 q2 := by
          split
          · exact cells_set_other _ _ _ _ _ _ (by
              intro ⟨ha, hb⟩; exact hp (Prod.ext ha hb))
          · rfl
        rw [hcells]
        by_cases hmem : (q1, q2) ∈ rest.take m
        · by_cases hemp : (w.cells q1 q2).entity = Entity.empty
          · rw [if_pos ⟨hmem, hemp⟩, if_pos ⟨by simp [List.take_succ_cons, hmem], hemp⟩]
          · rw [if_neg (fun hc => hemp hc.2), if_neg (fun hc => hemp hc.2)]
        · rw [if_neg (fun hc => hmem hc.1),
            if_neg (fun hc => by
              rcases (by simpa [List.take_succ_cons] using hc.1 : (q1, q2) = p ∨
                (q1, q2) ∈ rest.take m) with h | h
              · exact hp h
              · exact hmem h)]

theorem countEntities_eq_countP (w : World) (e : Entity) :
    countEntities w e = (coords w.size).countP (fun p => (w.cells p.1 p.2).entity == e) :=
  ((coords w.size).countP_eq_length_filter _).symm

/-- Full description of the grid produced by `Populate` on a distinct
position list over an all-empty grid. -/
theorem Populate_cells (w : World) (positions : List (Int × Int)) (nf ns : Nat)
    (hnd : positions.Nodup)
    (hempty : ∀ r c : Int, (w.cells r c).entity = Entity.empty) (q1 q2 : Int) :
    (Populate w positions nf ns).cells q1 q2 =
      if (q1, q2) ∈ positions.take ns then ⟨Entity.shark, 0, w.starve⟩
      else if (q1, q2) ∈ (positions.drop ns).take nf
      then ⟨Entity.fish, 0, (w.cells q1 q2).energy⟩
      else w.cells q1 q2 := by
  have hndd : (positions.drop ns).Nodup := hnd.sublist (List.drop_sublist ns positions)
  rw [Populate, populateFish_cells _ hndd, populateSharks_cells]
  by_cases h1 : (q1, q2) ∈ positions.take ns
  · rw [if_pos h1, if_pos h1, if_neg (fun hc => by exact absurd hc.2 (by simp))]
  · rw [if_neg h1, if_neg h1]
    by_cases h2 : (q1, q2) ∈ (positions.drop ns).take nf
    · rw [if_pos ⟨h2, hempty q1 q2⟩, if_pos h2]
    · rw [if_neg (fun hc => h2 hc.1), if_neg h2]

/-! ## Claim C6: Populate -/

/-- C6: on an all-empty grid, `Populate` places exactly
`min numShark size²` sharks (each `⟨Shark, 0, starve⟩`), then exactly
`min numFish (size² - sharks placed)` fish (each with breed timer 0), along a
shuffled permutation of all coordinates; overflow is silently truncated. -/
theorem populate_spec (w : World) (positions : List (Int × Int)) (nf ns : Nat)
    (_hsize : 2 ≤ w.size)
    (hempty : ∀ r c : Int, (w.cells r c).entity = Entity.empty)
    (hperm : positions.Perm (coords w.size)) :
    countEntities (Populate w positions nf ns) Entity.shark = min ns (w.size * w.size) ∧
    countEntities (Populate w positions nf ns) Entity.fish =
      min nf (w.size * w.size - min ns (w.size * w.size)) ∧
    (∀ r c : Int, ((Populate w positions nf ns).cells r c).entity = Entity.shark →
      (Populate w positions nf ns).cells r c = ⟨Entity.shark, 0, w.starve⟩) ∧
    (∀ r c : Int, ((Populate w positions nf ns).cells r c).entity = Entity.fish →
      ((Populate w positions nf ns).cells r c).breedTimer = 0) := by
  have hnd : positions.Nodup := hperm.nodup_iff.mpr (coords_nodup _)
  have hlen : positions.length = w.size * w.size := by
    rw [hperm.length_eq, coords_length]
  have hndd : (positions.drop ns).Nodup := hnd.sublist (List.drop_sublist ns positions)
  have hdisj : (positions.take ns).Disjoint (positions.drop ns) :=
    (List.nodup_append.mp ((List.take_append_drop ns positions).symm ▸ hnd)).2.2
  have hdisj2 : ((positions.drop ns).take nf).Disjoint ((positions.drop ns).drop nf) :=
    (List.nodup_append.mp
      ((List.take_append_drop nf (positions.drop ns)).symm ▸ hndd)).2.2
  have hsize : (Populate w positions nf ns).size = w.size := by
    rw [Populate, populateFish_size, populateSharks_size]
  have hcell : ∀ q1 q2 : Int, (Populate w positions nf ns).cells q1 q2 =
      if (q1, q2) ∈ positions.take ns then ⟨Entity.shark, 0, w.starve⟩
      else if (q1, q2) ∈ (positions.drop ns).take nf
      then ⟨Entity.fish, 0, (w.cells q1 q2).energy⟩
      else w.cells q1 q2 :=
    Populate_cells w positions nf ns hnd hempty
  refine ⟨?_, ?_, ?_, ?_⟩
  · rw [countEntities_eq_countP, hsize,
      ← hperm.countP_eq
        (fun p => ((Populate w positions nf ns).cells p.1 p.2).entity == Entity.shark),
      ← List.take_append_drop ns positions, List.countP_append,
      List.take_append_drop ns positions]
    have ht : (positions.take ns).countP
        (fun p => ((Populate w positions nf ns).cells p.1 p.2).entity == Entity.shark) =
        (positions.take ns).length := by
      refine List.countP_eq_length.mpr (fun a ha => ?_)
      simp only [hcell a.1 a.2]
      rw [if_pos (by simpa using ha)]
      simp
    have hd : (positions.drop ns).countP
        (fun p => ((Populate w positions nf ns).cells p.1 p.2).entity == Entity.shark) = 0 := by
      refine List.countP_eq_zero.mpr (fun a ha => ?_)
      simp only [hcell a.1 a.2]
      rw [if_neg (fun hc => hdisj hc (by simpa using ha))]
      split
      · simp
      · rw [hempty a.1 a.2]; simp
    rw [ht, hd, List.length_take, hlen, Nat.add_zero]
  · rw [countEntities_eq_countP, hsize,
      ← hperm.countP_eq
        (fun p => ((Populate w positions nf ns).cells p.1 p.2).entity == Entity.fish),
      ← List.take_append_drop ns positions, List.countP_append,
      List.take_append_drop ns positions]
    have ht : (positions.take ns).countP
        (fun p => ((Populate w positions nf ns).cells p.1 p.2).entity == Entity.fish) = 0 := by
      refine List.countP_eq_zero.mpr (fun a ha => ?_)
      simp only [hcell a.1 a.2]
      rw [if_pos (by simpa using ha)]
      simp
    rw [ht, Nat.zero_add]
    rw [show positions.drop ns = (positions.drop ns).take nf ++ (positions.drop ns).drop nf
        from (List.take_append_drop nf (positions.drop ns)).symm, List.countP_append]
    have htt : ((positions.drop ns).take nf).countP
        (fun p => ((Populate w positions nf ns).cells p.1 p.2).entity == Entity.fish) =
        ((positions.drop ns).take nf).length := by
      refine List.countP_eq_length.mpr (fun a ha => ?_)
      simp only [hcell a.1 a.2]
      rw [if_neg (fun hc => hdisj hc (List.mem_of_mem_take (by simpa using ha))),
        if_pos (by simpa using ha)]
      simp
    have hdd : ((positions.drop ns).drop nf).countP
        (fun p => ((Populate w positions nf ns).cells p.1 p.2).entity == Entity.fish) = 0 := by
      refine List.countP_eq_zero.mpr (fun a ha => ?_)
      simp only [hcell a.1 a.2]
      rw [if_neg (fun hc => hdisj hc (List.mem_of_mem_drop (by simpa using ha))),
        if_neg (fun hc => hdisj2 hc (by simpa using ha))]
      rw [hempty a.1 a.2]; simp
    rw [htt, hdd, List.length_take, List.length_drop, hlen, Nat.add_zero]
    have : w.size * w.size - ns = w.size * w.size - min ns (w.size * w.size) := by omega
    rw [this]
  · intro r c hsh
    rw [hcell r c] at hsh
    rw [hcell r c]
    by_cases h1 : (r, c) ∈ positions.take ns
    · rw [if_pos h1]
    · rw [if_neg h1] at hsh ⊢
      by_cases h2 : (r, c) ∈ (positions.drop ns).take nf
      · rw [if_pos h2] at hsh; exact absurd hsh (by simp)
      · rw [if_neg h2] at hsh; exact absurd hsh (by rw [hempty r c]; simp)
  · intro r c hfi
    rw [hcell r c] at hfi
    rw [hcell r c]
    by_cases h1 : (r, c) ∈ positions.take ns
    · rw [if_pos h1] at hfi; exact absurd hfi (by simp)
    · rw [if_neg h1] at hfi ⊢
      by_cases h2 : (r, c) ∈ (positions.drop ns).take nf
      · rw [if_pos h2]
      · rw [if_neg h2] at hfi; exact absurd hfi (by rw [hempty r c]; simp)

/-- Witness for C6: a 2x2 grid populated with 2 sharks and 3 fish — one fish
is silently dropped (`min 3 (4 - 2) = 2`). -/
theorem populate_spec_witness :
    countEntities (Populate (newWorld ⟨2, 3, 3, 3, 4, 2, 1, 0, 1⟩) (coords 2) 3 2)
        Entity.shark = min 2 (2 * 2) ∧
    countEntities (Populate (newWorld ⟨2, 3, 3, 3, 4, 2, 1, 0, 1⟩) (coords 2) 3 2)
        Entity.fish = min 3 (2 * 2 - min 2 (2 * 2)) :=
  ⟨(populate_spec (newWorld ⟨2, 3, 3, 3, 4, 2, 1, 0, 1⟩) (coords 2) 3 2
      (by decide) (fun _ _ => rfl) (List.Perm.refl _)).1,
   (populate_spec (newWorld ⟨2, 3, 3, 3, 4, 2, 1, 0, 1⟩) (coords 2) 3 2
      (by decide) (fun _ _ => rfl) (List.Perm.refl _)).2.1⟩

/-! ## Claim C10: shark energy never exceeds the starve parameter -/

/-- Worlds the program can actually be in: `main` populates a fresh world
from the configuration (with some shuffle of the coordinates), then the run
loop replaces the world by whole steps. -/
inductive Reachable (cfg : Config) : World → Prop where
  | init : ∀ positions : List (Int × Int), positions.Perm (coords cfg.gridSize) →
      Reachable cfg (Populate (newWorld cfg) positions cfg.numFish cfg.numShark)
  | step : ∀ w rnd, Reachable cfg w → Reachable cfg (stepWorld w cfg rnd).1

/-- Every shark cell of `w` has energy at most `b`. -/
def sharkEnergyBound (w : World) (b : Int) : Prop :=
  ∀ r c : Int, (w.cells r c).entity = Entity.shark → (w.cells r c).energy ≤ b

theorem stepFish_preserves_bound (current next : World) (row col : Int)
    (cfg : Config) (rnd : RandSrc) (b : Int) (hn : sharkEnergyBound next b) :
    sharkEnergyBound (stepFish current next row col cfg rnd).1 b := by
  intro r c hsh
  by_cases hch : (stepFish current next row col cfg rnd).1.cells r c = next.cells r c
  · rw [hch] at hsh ⊢; exact hn r c hsh
  · rcases stepFish_cases current next row col cfg rnd with ⟨_, he⟩ |
      ⟨d, _, _, he⟩ | ⟨d, _, _, he⟩
    · rw [he] at hch hsh
      obtain ⟨_, _, hv⟩ := changed_set_single hch
      rw [hv] at hsh; exact absurd hsh (by simp)
    · rw [he] at hch hsh
      rcases changed_set_double hch with ⟨_, _, hv⟩ | ⟨_, _, _, hv⟩ <;>
        (rw [hv] at hsh; exact absurd hsh (by simp))
    · rw [he] at hch hsh
      obtain ⟨_, _, hv⟩ := changed_set_single hch
      rw [hv] at hsh; exact absurd hsh (by simp)

theorem stepShark_preserves_bound (current next : World) (row col : Int)
    (cfg : Config) (rnd : RandSrc)
    (hcur : (current.cells row col).energy ≤ cfg.starve)
    (hn : sharkEnergyBound next cfg.starve) :
    sharkEnergyBound (stepShark current next row col cfg rnd).1 cfg.starve := by
  intro r c hsh
  by_cases hch : (stepShark current next row col cfg rnd).1.cells r c = next.cells r c
  · rw [hch] at hsh ⊢; exact hn r c hsh
  · rcases stepShark_cases current next row col cfg rnd with ⟨_, he⟩ | ⟨_, hc⟩
    · rw [he] at hch; exact absurd rfl hch
    rcases hc with ⟨d, _, _, he⟩ | ⟨d, _, _, he⟩ | ⟨_, d, _, _, he⟩ |
      ⟨_, d, _, _, he⟩ | ⟨_, _, he⟩
    · rw [he] at hch hsh ⊢
      rcases changed_set_double hch with ⟨_, _, hv⟩ | ⟨_, _, _, hv⟩ <;> rw [hv]
    · rw [he] at hch hsh ⊢
      obtain ⟨_, _, hv⟩ := changed_set_single hch
      rw [hv]
    · rw [he] at hch hsh ⊢
      rcases changed_set_double hch with ⟨_, _, hv⟩ | ⟨_, _, _, hv⟩ <;> rw [hv]
      · exact (by omega : (current.cells row col).energy - 1 ≤ cfg.starve)
    · rw [he] at hch hsh ⊢
      obtain ⟨_, _, hv⟩ := changed_set_single hch
      rw [hv]
      exact (by omega : (current.cells row col).energy - 1 ≤ cfg.starve)
    · rw [he] at hch hsh ⊢
      obtain ⟨_, _, hv⟩ := changed_set_single hch
      rw [hv]
      exact (by omega : (current.cells row col).energy - 1 ≤ cfg.starve)

theorem stepCell_preserves_bound (w : World) (cfg : Config) (st : World × RandSrc)
    (p : Int × Int) (hw : sharkEnergyBound w cfg.starve)
    (hn : sharkEnergyBound st.1 cfg.starve) :
    sharkEnergyBound (stepCell w cfg st p).1 cfg.starve := by
  unfold stepCell
  split
  · exact hn
  · cases hE : (w.cells p.1 p.2).entity with
    | empty => exact hn
    | fish => exact stepFish_preserves_bound w st.1 p.1 p.2 cfg st.2 cfg.starve hn
    | shark =>
      exact stepShark_preserves_bound w st.1 p.1 p.2 cfg st.2 (hw p.1 p.2 hE) hn

theorem foldl_stepCell_preserves_bound (w : World) (cfg : Config)
    (hw : sharkEnergyBound w cfg.starve) :
    ∀ (l : List (Int × Int)) (st : World × RandSrc),
      sharkEnergyBound st.1 cfg.starve →
      sharkEnergyBound (l.foldl (stepCell w cfg) st).1 cfg.starve := by
  intro l
  induction l with
  | nil => exact fun st hst => hst
  | cons p rest ih =>
    intro st hst
    exact ih _ (stepCell_preserves_bound w cfg st p hw hst)

/-- C10: with `starve > 0`, every shark cell of every reachable world has
energy at most the configuration's starve parameter. -/
theorem shark_energy_le_starve (cfg : Config) (w : World)
    (_hstarve : 0 < cfg.starve) (hr : Reachable cfg w) :
    ∀ r c : Int, (w.cells r c).entity = Entity.shark →
      (w.cells r c).energy ≤ cfg.starve := by
  induction hr with
  | init positions hperm =>
    intro r c hsh
    have hnd : positions.Nodup := hperm.nodup_iff.mpr (coords_nodup _)
    have hcell := Populate_cells (newWorld cfg) positions cfg.numFish cfg.numShark hnd
      (fun _ _ => rfl) r c
    rw [hcell] at hsh ⊢
    by_cases h1 : (r, c) ∈ positions.take cfg.numShark
    · rw [if_pos h1] at hsh ⊢
      exact le_refl _
    · rw [if_neg h1] at hsh ⊢
      by_cases h2 : (r, c) ∈ (positions.drop cfg.numShark).take cfg.numFish
      · rw [if_pos h2] at hsh; exact absurd hsh (by simp)
      · rw [if_neg h2] at hsh; exact absurd hsh (by simp [newWorld, emptyCell])
  | step w' rnd _ ih =>
    have hbase : sharkEnergyBound (newEmptyWorldLike w') cfg.starve := by
      intro r c hsh
      exact absurd hsh (by simp [newEmptyWorldLike, emptyCell])
    exact foldl_stepCell_preserves_bound w' cfg ih (coords w'.size)
      (newEmptyWorldLike w', rnd) hbase

/-- Witness for C10 at a concrete populated 2x2 world with starve 4: the
shark placed at (0,0) has energy at most 4. -/
theorem shark_energy_le_starve_witness :
    ((Populate (newWorld ⟨1, 2, 3, 3, 4, 2, 1, 0, 1⟩) (coords 2) 2 1).cells 0 0).energy ≤
      (4 : Int) :=
  shark_energy_le_starve ⟨1, 2, 3, 3, 4, 2, 1, 0, 1⟩ _ (by decide)
    (Reachable.init (coords 2) (List.Perm.refl _)) 0 0 (by decide)

/-! ## Write-target and size helpers for the step engine -/

theorem stepFish_writes_empty (current next : World) (row col : Int)
    (cfg : Config) (rnd : RandSrc) (q1 q2 : Int)
    (horig : (next.cells row col).entity = Entity.empty)
    (hch : (stepFish current next row col cfg rnd).1.cells q1 q2 ≠ next.cells q1 q2) :
    (next.cells q1 q2).entity = Entity.empty := by
  rcases stepFish_cases current next row col cfg rnd with ⟨_, he⟩ |
    ⟨d, hd, _, he⟩ | ⟨d, hd, _, he⟩
  · rw [he] at hch
    obtain ⟨h1, h2, _⟩ := changed_set_single hch
    rw [h1, h2]; exact horig
  · rw [he] at hch
    rcases changed_set_double hch with ⟨h1, h2, _⟩ | ⟨h1, h2, _, _⟩
    · rw [h1, h2]; exact ((mem_fishEmptySpots _ _ _ _ _).mp hd).2.2
    · rw [h1, h2]; exact horig
  · rw [he] at hch
    obtain ⟨h1, h2, _⟩ := changed_set_single hch
    rw [h1, h2]; exact ((mem_fishEmptySpots _ _ _ _ _).mp hd).2.2

theorem stepShark_writes_empty (current next : World) (row col : Int)
    (cfg : Config) (rnd : RandSrc) (q1 q2 : Int)
    (horig : (next.cells row col).entity = Entity.empty)
    (hch : (stepShark current next row col cfg rnd).1.cells q1 q2 ≠ next.cells q1 q2) :
    (next.cells q1 q2).entity = Entity.empty := by
  rcases stepShark_cases current next row col cfg rnd with ⟨_, he⟩ | ⟨_, hc⟩
  · rw [he] at hch; exact absurd rfl hch
  rcases hc with ⟨d, hd, _, he⟩ | ⟨d, hd, _, he⟩ | ⟨_, d, hd, _, he⟩ |
    ⟨_, d, hd, _, he⟩ | ⟨_, _, he⟩
  · rw [he] at hch
    rcases changed_set_double hch with ⟨h1, h2, _⟩ | ⟨h1, h2, _, _⟩
    · rw [h1, h2]; exact ((mem_sharkFishTargets _ _ _ _ _).mp hd).2.2
    · rw [h1, h2]; exact horig
  · rw [he] at hch
    obtain ⟨h1, h2, _⟩ := changed_set_single hch
    rw [h1, h2]; exact ((mem_sharkFishTargets _ _ _ _ _).mp hd).2.2
  · rw [he] at hch
    rcases changed_set_double hch with ⟨h1, h2, _⟩ | ⟨h1, h2, _, _⟩
    · rw [h1, h2]; exact ((mem_sharkEmptyTargets _ _ _ _ _).mp hd).2.2
    · rw [h1, h2]; exact horig
  · rw [he] at hch
    obtain ⟨h1, h2, _⟩ := changed_set_single hch
    rw [h1, h2]; exact ((mem_sharkEmptyTargets _ _ _ _ _).mp hd).2.2
  · rw [he] at hch
    obtain ⟨h1, h2, _⟩ := changed_set_single hch
    rw [h1, h2]; exact horig

theorem stepFish_size (current next : World) (row col : Int) (cfg : Config) (rnd : RandSrc) :
    (stepFish current next row col cfg rnd).1.size = next.size := by
  rcases stepFish_cases current next row col cfg rnd with ⟨_, he⟩ |
    ⟨d, _, _, he⟩ | ⟨d, _, _, he⟩ <;> rw [he]
  <;> rfl

theorem stepShark_size (current next : World) (row col : Int) (cfg : Config) (rnd : RandSrc) :
    (stepShark current next row col cfg rnd).1.size = next.size := by
  rcases stepShark_cases current next row col cfg rnd with ⟨_, he⟩ | ⟨_, hc⟩
  · rw [he]
  · rcases hc with ⟨d, _, _, he⟩ | ⟨d, _, _, he⟩ | ⟨_, d, _, _, he⟩ |
      ⟨_, d, _, _, he⟩ | ⟨_, _, he⟩ <;> rw [he] <;> rfl

theorem stepCell_size (w : World) (cfg : Config) (st : World × RandSrc) (p : Int × Int) :
    (stepCell w cfg st p).1.size = st.1.size := by
  unfold stepCell
  split
  · rfl
  · cases (w.cells p.1 p.2).entity with
    | empty => rfl
    | fish => exact stepFish_size w st.1 p.1 p.2 cfg st.2
    | shark => exact stepShark_size w st.1 p.1 p.2 cfg st.2

theorem foldl_stepCell_size (w : World) (cfg : Config) :
    ∀ (l : List (Int × Int)) (st : World × RandSrc),
      (l.foldl (stepCell w cfg) st).1.size = st.1.size := by
  intro l
  induction l with
  | nil => exact fun st => rfl
  | cons p rest ih =>
    intro st
    rw [List.foldl_cons, ih, stepCell_size]

theorem stepWorld_size (w : World) (cfg : Config) (rnd : RandSrc) :
    (stepWorld w cfg rnd).1.size = w.size := by
  rw [stepWorld, foldl_stepCell_size]
  rfl

/-! ## Counting on a fixed coordinate list -/

/-- Occurrence count of entity `e` among the cells of `w` at the coordinates
of `l`. For `l = coords w.size` this is `countEntities`. -/
def countOn (l : List (Int × Int)) (w : World) (e : Entity) : Nat :=
  l.countP (fun p => (w.cells p.1 p.2).entity == e)

theorem countEntities_eq_countOn (w : World) (e : Entity) :
    countEntities w e = countOn (coords w.size) w e :=
  countEntities_eq_countP w e

theorem countOn_congr (l : List (Int × Int)) (w w' : World)
    (h : ∀ p ∈ l, w'.cells p.1 p.2 = w.cells p.1 p.2) (e : Entity) :
    countOn l w' e = countOn l w e := by
  unfold countOn
  rw [List.countP_eq_length_filter, List.countP_eq_length_filter]
  rw [List.filter_congr (fun a ha => by rw [h a ha])]

theorem countOn_set (l : List (Int × Int)) (hnd : l.Nodup) (q : Int × Int) (hq : q ∈ l)
    (w : World) (x : Cell) (e : Entity)
    (hempty : (w.cells q.1 q.2).entity = Entity.empty) (he : e ≠ Entity.empty) :
    countOn l (w.set q.1 q.2 x) e = countOn l w e + (if x.entity == e then 1 else 0) := by
  induction l with
  | nil => exact absurd hq (List.not_mem_nil q)
  | cons a rest ih =>
    rw [List.nodup_cons] at hnd
    by_cases hqa : q = a
    · subst hqa
      have hrest : ∀ p ∈ rest, (w.set q.1 q.2 x).cells p.1 p.2 = w.cells p.1 p.2 := by
        intro p hp
        refine cells_set_other _ _ _ _ _ _ (fun hc => ?_)
        exact hnd.1 (by rw [show p = q from Prod.ext hc.1 hc.2] at hp; exact hp)
      unfold countOn
      rw [List.countP_cons, List.countP_cons]
      have : countOn rest (w.set q.1 q.2 x) e = countOn rest w e :=
        countOn_congr rest w _ hrest e
      unfold countOn at this
      rw [this, cells_set_same]
      have hqf : ((w.cells q.1 q.2).entity == e) = false := by
        simp only [beq_eq_false_iff_ne, ne_eq]
        rw [hempty]; exact fun hh => he hh.symm
      rw [hqf]
      by_cases hx : (x.entity == e) = true
      · rw [hx]; simp
      · rw [Bool.eq_false_iff.mpr hx]; simp
    · have hq' : q ∈ rest := by
        rcases List.mem_cons.mp hq with h | h
        · exact absurd h hqa
        · exact h
      unfold countOn
      rw [List.countP_cons, List.countP_cons]
      have ha : (w.set q.1 q.2 x).cells a.1 a.2 = w.cells a.1 a.2 := by
        refine cells_set_other _ _ _ _ _ _ (fun hc => ?_)
        exact hqa (Prod.ext hc.1 hc.2).symm
      rw [ha]
      have := ih hnd.2 hq'
      unfold countOn at this
      omega

/-! ## Claim C2: organism accounting across one step -/

/-- Observer: the step loop actually processes an organism at `p` (the next
grid is still empty there and the current grid holds a fish or shark). -/
def processedAt (w : World) (st : World × RandSrc) (p : Int × Int) : Bool :=
  ((st.1.cells p.1 p.2).entity == Entity.empty) &&
  !((w.cells p.1 p.2).entity == Entity.empty)

/-- Observer: the organism processed at `p` survives this chronon (any fish;
a shark whose energy stays positive after the decrement). -/
def survivesAt (w : World) (st : World × RandSrc) (p : Int × Int) : Bool :=
  ((st.1.cells p.1 p.2).entity == Entity.empty) &&
  (((w.cells p.1 p.2).entity == Entity.fish) ||
   (((w.cells p.1 p.2).entity == Entity.shark) &&
     decide (0 < (w.cells p.1 p.2).energy - 1)))

/-- Observer: processing `p` is a qualifying breed event (the entity is at
threshold and actually takes a breeding branch, i.e. it can move). -/
def breedsAt (w : World) (cfg : Config) (st : World × RandSrc) (p : Int × Int) : Bool :=
  ((st.1.cells p.1 p.2).entity == Entity.empty) &&
  ((((w.cells p.1 p.2).entity == Entity.fish) &&
    (decide (fishEmptySpots w st.1 p.1 p.2 ≠ [])) &&
    (decide ((w.cells p.1 p.2).breedTimer + 1 ≥ cfg.fishBreed))) ||
   (((w.cells p.1 p.2).entity == Entity.shark) &&
    (decide (0 < (w.cells p.1 p.2).energy - 1)) &&
    ((decide (sharkFishTargets w st.1 p.1 p.2 ≠ [])) ||
     (decide (sharkEmptyTargets w st.1 p.1 p.2 ≠ []))) &&
    (decide ((w.cells p.1 p.2).breedTimer + 1 ≥ cfg.sharkBreed))))

/-- One iteration of `StepWorld`'s loop together with running survivor and
breed-event tallies. -/
def statsStep (w : World) (cfg : Config) (acc : (World × RandSrc) × Nat × Nat)
    (p : Int × Int) : (World × RandSrc) × Nat × Nat :=
  (stepCell w cfg acc.1 p,
   acc.2.1 + (if survivesAt w acc.1 p then 1 else 0),
   acc.2.2 + (if breedsAt w cfg acc.1 p then 1 else 0))

/-- The step engine run together with its survivor and breed-event tallies. -/
def stepWorldStats (w : World) (cfg : Config) (rnd : RandSrc) :
    (World × RandSrc) × Nat × Nat :=
  (coords w.size).foldl (statsStep w cfg) ((newEmptyWorldLike w, rnd), 0, 0)

def stepSurvivors (w : World) (cfg : Config) (rnd : RandSrc) : Nat :=
  (stepWorldStats w cfg rnd).2.1

def stepBreedEvents (w : World) (cfg : Config) (rnd : RandSrc) : Nat :=
  (stepWorldStats w cfg rnd).2.2

/-- The number of fish and sharks in the world. -/
def countOrganisms (w : World) : Nat :=
  countEntities w Entity.fish + countEntities w Entity.shark

theorem foldl_statsStep_fst (w : World) (cfg : Config) :
    ∀ (l : List (Int × Int)) (st : World × RandSrc) (s b : Nat),
      (l.foldl (statsStep w cfg) (st, s, b)).1 = l.foldl (stepCell w cfg) st := by
  intro l
  induction l with
  | nil => exact fun st s b => rfl
  | cons p rest ih =>
    intro st s b
    rw [List.foldl_cons, List.foldl_cons, statsStep, ih]

theorem stepWorldStats_fst (w : World) (cfg : Config) (rnd : RandSrc) :
    (stepWorldStats w cfg rnd).1 = stepWorld w cfg rnd := by
  rw [stepWorldStats, stepWorld, foldl_statsStep_fst]

theorem stepCell_countOn (w : World) (cfg : Config) (st : World × RandSrc)
    (p : Int × Int) (hs : 2 ≤ w.size) (hp : p ∈ coords w.size) :
    countOn (coords w.size) (stepCell w cfg st p).1 Entity.fish +
      countOn (coords w.size) (stepCell w cfg st p).1 Entity.shark =
    countOn (coords w.size) st.1 Entity.fish +
      countOn (coords w.size) st.1 Entity.shark +
      (if survivesAt w st p then 1 else 0) +
      (if breedsAt w cfg st p then 1 else 0) := by
  have hnd := coords_nodup w.size
  obtain ⟨hp1, hp2, hp3, hp4⟩ := (mem_coords w.size p).mp hp
  by_cases hocc : (st.1.cells p.1 p.2).entity ≠ Entity.empty
  · have hsc : stepCell w cfg st p = st := by unfold stepCell; rw [if_pos hocc]
    have hsv : survivesAt w st p = false := by simp [survivesAt, hocc]
    have hbr : breedsAt w cfg st p = false := by simp [breedsAt, hocc]
    rw [hsc, hsv, hbr]; simp
  · push_neg at hocc
    cases hE : (w.cells p.1 p.2).entity with
    | empty =>
      have hsc : stepCell w cfg st p = st := by
        unfold stepCell; rw [if_neg (fun hne => hne hocc), hE]
      have hsv : survivesAt w st p = false := by simp [survivesAt, hE]
      have hbr : breedsAt w cfg st p = false := by simp [breedsAt, hE]
      rw [hsc, hsv, hbr]; simp
    | fish =>
      have hsc : stepCell w cfg st p = stepFish w st.1 p.1 p.2 cfg st.2 := by
        unfold stepCell; rw [if_neg (fun hne => hne hocc), hE]
      rw [hsc]
      rcases stepFish_cases w st.1 p.1 p.2 cfg st.2 with ⟨hce, he⟩ |
        ⟨d, hd, hb, he⟩ | ⟨d, hd, hb, he⟩
      · rw [he]
        dsimp only
        rw [countOn_set _ hnd p hp st.1 _ Entity.fish hocc (by simp),
            countOn_set _ hnd p hp st.1 _ Entity.shark hocc (by simp)]
        have hsv : survivesAt w st p = true := by simp [survivesAt, hocc, hE]
        have hbr : breedsAt w cfg st p = false := by simp [breedsAt, hE, hce]
        rw [hsv, hbr]; simp; omega
      · have hdmem := (mem_fishEmptySpots w st.1 p.1 p.2 d).mp hd
        have hdcoords : d ∈ coords w.size := (mem_coords w.size d).mpr
          (mem_neighbors_range w p.1 p.2 d (by omega) hp1 hp2 hp3 hp4 hdmem.1)
        have hdne : d ≠ p := mem_neighbors_ne w p.1 p.2 d hs hp1 hp2 hp3 hp4 hdmem.1
        have hdem2 : ((st.1.set p.1 p.2 ⟨Entity.fish, 0, 0⟩).cells d.1 d.2).entity =
            Entity.empty := by
          rw [cells_set_other st.1 p.1 p.2 _ d.1 d.2
            (fun hc => hdne (Prod.ext hc.1 hc.2))]
          exact hdmem.2.2
        rw [he]
        dsimp only
        rw [countOn_set _ hnd d hdcoords _ _ Entity.fish hdem2 (by simp),
            countOn_set _ hnd d hdcoords _ _ Entity.shark hdem2 (by simp),
            countOn_set _ hnd p hp st.1 _ Entity.fish hocc (by simp),
            countOn_set _ hnd p hp st.1 _ Entity.shark hocc (by simp)]
        have hsv : survivesAt w st p = true := by simp [survivesAt, hocc, hE]
        have hbr : breedsAt w cfg st p = true := by
          simp [breedsAt, hocc, hE, hb, List.ne_nil_of_mem hd]
        rw [hsv, hbr]; simp; omega
      · have hdmem := (mem_fishEmptySpots w st.1 p.1 p.2 d).mp hd
        have hdcoords : d ∈ coords w.size := (mem_coords w.size d).mpr
          (mem_neighbors_range w p.1 p.2 d (by omega) hp1 hp2 hp3 hp4 hdmem.1)
        rw [he]
        dsimp only
        rw [countOn_set _ hnd d hdcoords st.1 _ Entity.fish hdmem.2.2 (by simp),
            countOn_set _ hnd d hdcoords st.1 _ Entity.shark hdmem.2.2 (by simp)]
        have hsv : survivesAt w st p = true := by simp [survivesAt, hocc, hE]
        have hbr : breedsAt w cfg st p = false := by
          simp [breedsAt, hocc, hE]
          intro hne
          omega
        rw [hsv, hbr]; simp; omega
    | shark =>
      have hsc : stepCell w cfg st p = stepShark w st.1 p.1 p.2 cfg st.2 := by
        unfold stepCell; rw [if_neg (fun hne => hne hocc), hE]
      rw [hsc]
      rcases stepShark_cases w st.1 p.1 p.2 cfg st.2 with ⟨hdead, he⟩ | ⟨halive, hc⟩
      · have hneg : ¬(0 < (w.cells p.1 p.2).energy - 1) := by omega
        have hsv : survivesAt w st p = false := by simp [survivesAt, hE, hneg]
        have hbr : breedsAt w cfg st p = false := by simp [breedsAt, hE, hneg]
        rw [he, hsv, hbr]; simp
      · have hpos : 0 < (w.cells p.1 p.2).energy - 1 := by omega
        rcases hc with ⟨d, hd, hb, he⟩ | ⟨d, hd, hb, he⟩ | ⟨hfe, d, hd, hb, he⟩ |
          ⟨hfe, d, hd, hb, he⟩ | ⟨hfe, hee, he⟩
        · have hdmem := (mem_sharkFishTargets w st.1 p.1 p.2 d).mp hd
          have hdcoords : d ∈ coords w.size := (mem_coords w.size d).mpr
            (mem_neighbors_range w p.1 p.2 d (by omega) hp1 hp2 hp3 hp4 hdmem.1)
          have hdne : d ≠ p := mem_neighbors_ne w p.1 p.2 d hs hp1 hp2 hp3 hp4 hdmem.1
          have hdem2 : ((st.1.set p.1 p.2 ⟨Entity.shark, 0, cfg.starve⟩).cells d.1 d.2).entity =
              Entity.empty := by
            rw [cells_set_other st.1 p.1 p.2 _ d.1 d.2
              (fun hc => hdne (Prod.ext hc.1 hc.2))]
            exact hdmem.2.2
          rw [he]
          dsimp only
          rw [countOn_set _ hnd d hdcoords _ _ Entity.fish hdem2 (by simp),
              countOn_set _ hnd d hdcoords _ _ Entity.shark hdem2 (by simp),
              countOn_set _ hnd p hp st.1 _ Entity.fish hocc (by simp),
              countOn_set _ hnd p hp st.1 _ Entity.shark hocc (by simp)]
          have hsv : survivesAt w st p = true := by simp [survivesAt, hocc, hE, hpos]
          have hbr : breedsAt w cfg st p = true := by
            simp [breedsAt, hocc, hE, hpos, hb]
            exact Or.inl (List.ne_nil_of_mem hd)
          rw [hsv, hbr]; simp; omega
        · have hdmem := (mem_sharkFishTargets w st.1 p.1 p.2 d).mp hd
          have hdcoords : d ∈ coords w.size := (mem_coords w.size d).mpr
            (mem_neighbors_range w p.1 p.2 d (by omega) hp1 hp2 hp3 hp4 hdmem.1)
          rw [he]
          dsimp only
          rw [countOn_set _ hnd d hdcoords st.1 _ Entity.fish hdmem.2.2 (by simp),
              countOn_set _ hnd d hdcoords st.1 _ Entity.shark hdmem.2.2 (by simp)]
          have hsv : survivesAt w st p = true := by simp [survivesAt, hocc, hE, hpos]
          have hbr : breedsAt w cfg st p = false := by
            simp [breedsAt, hocc, hE, hpos]
            intro h1
            omega
          rw [hsv, hbr]; simp; omega
        · have hdmem := (mem_sharkEmptyTargets w st.1 p.1 p.2 d).mp hd
          have hdcoords : d ∈ coords w.size := (mem_coords w.size d).mpr
            (mem_neighbors_range w p.1 p.2 d (by omega) hp1 hp2 hp3 hp4 hdmem.1)
          have hdne : d ≠ p := mem_neighbors_ne w p.1 p.2 d hs hp1 hp2 hp3 hp4 hdmem.1
          have hdem2 : ((st.1.set p.1 p.2 ⟨Entity.shark, 0, cfg.starve⟩).cells d.1 d.2).entity =
              Entity.empty := by
            rw [cells_set_other st.1 p.1 p.2 _ d.1 d.2
              (fun hc => hdne (Prod.ext hc.1 hc.2))]
            exact hdmem.2.2
          rw [he]
          dsimp only
          rw [countOn_set _ hnd d hdcoords _ _ Entity.fish hdem2 (by simp),
              countOn_set _ hnd d hdcoords _ _ Entity.shark hdem2 (by simp),
              countOn_set _ hnd p hp st.1 _ Entity.fish hocc (by simp),
              countOn_set _ hnd p hp st.1 _ Entity.shark hocc (by simp)]
          have hsv : survivesAt w st p = true := by simp [survivesAt, hocc, hE, hpos]
          have hbr : breedsAt w cfg st p = true := by
            simp [breedsAt, hocc, hE, hpos, hb]
            exact Or.inr (List.ne_nil_of_mem hd)
          rw [hsv, hbr]; simp; omega
        · have hdmem := (mem_sharkEmptyTargets w st.1 p.1 p.2 d).mp hd
          have hdcoords : d ∈ coords w.size := (mem_coords w.size d).mpr
            (mem_neighbors_range w p.1 p.2 d (by omega) hp1 hp2 hp3 hp4 hdmem.1)
          rw [he]
          dsimp only
          rw [countOn_set _ hnd d hdcoords st.1 _ Entity.fish hdmem.2.2 (by simp),
              countOn_set _ hnd d hdcoords st.1 _ Entity.shark hdmem.2.2 (by simp)]
          have hsv : survivesAt w st p = true := by simp [survivesAt, hocc, hE, hpos]
          have hbr : breedsAt w cfg st p = false := by
            simp [breedsAt, hocc, hE, hpos]
            intro h1
            omega
          rw [hsv, hbr]; simp; omega
        · rw [he]
          dsimp only
          rw [countOn_set _ hnd p hp st.1 _ Entity.fish hocc (by simp),
              countOn_set _ hnd p hp st.1 _ Entity.shark hocc (by simp)]
          have hsv : survivesAt w st p = true := by simp [survivesAt, hocc, hE, hpos]
          have hbr : breedsAt w cfg st p = false := by
            simp [breedsAt, hocc, hE, hpos, hfe, hee]
          rw [hsv, hbr]; simp; omega

theorem stepCell_preserves_occupied (w : World) (cfg : Config) (st : World × RandSrc)
    (p : Int × Int) (q1 q2 : Int)
    (h : (st.1.cells q1 q2).entity ≠ Entity.empty) :
    (stepCell w cfg st p).1.cells q1 q2 = st.1.cells q1 q2 := by
  by_cases hch : (stepCell w cfg st p).1.cells q1 q2 = st.1.cells q1 q2
  · exact hch
  · exfalso
    unfold stepCell at hch
    by_cases hg : (st.1.cells p.1 p.2).entity ≠ Entity.empty
    · rw [if_pos hg] at hch; exact hch rfl
    · rw [if_neg hg] at hch
      push_neg at hg
      cases hE : (w.cells p.1 p.2).entity with
      | empty => rw [hE] at hch; exact hch rfl
      | fish =>
        rw [hE] at hch
        exact h (stepFish_writes_empty w st.1 p.1 p.2 cfg st.2 q1 q2 hg hch)
      | shark =>
        rw [hE] at hch
        exact h (stepShark_writes_empty w st.1 p.1 p.2 cfg st.2 q1 q2 hg hch)

theorem foldl_stepCell_preserves_occupied (w : World) (cfg : Config) :
    ∀ (l : List (Int × Int)) (st : World × RandSrc) (q1 q2 : Int),
      (st.1.cells q1 q2).entity ≠ Entity.empty →
      (l.foldl (stepCell w cfg) st).1.cells q1 q2 = st.1.cells q1 q2 := by
  intro l
  induction l with
  | nil => exact fun st q1 q2 _ => rfl
  | cons p rest ih =>
    intro st q1 q2 h
    have h1 := stepCell_preserves_occupied w cfg st p q1 q2 h
    rw [List.foldl_cons, ih _ _ _ (by rw [h1]; exact h), h1]

theorem foldl_statsStep_count (w : World) (cfg : Config) (hs : 2 ≤ w.size) :
    ∀ (l : List (Int × Int)), (∀ p ∈ l, p ∈ coords w.size) →
    ∀ (st : World × RandSrc) (s b : Nat),
      countOn (coords w.size) (l.foldl (statsStep w cfg) (st, s, b)).1.1 Entity.fish +
        countOn (coords w.size) (l.foldl (statsStep w cfg) (st, s, b)).1.1 Entity.shark +
        s + b =
      countOn (coords w.size) st.1 Entity.fish +
        countOn (coords w.size) st.1 Entity.shark +
        (l.foldl (statsStep w cfg) (st, s, b)).2.1 +
        (l.foldl (statsStep w cfg) (st, s, b)).2.2 := by
  intro l
  induction l with
  | nil => intro _ st s b; simp
  | cons p rest ih =>
    intro hmem st s b
    have hstep := stepCell_countOn w cfg st p hs (hmem p (List.mem_cons_self p rest))
    have hih := ih (fun q hq => hmem q (List.mem_cons_of_mem p hq))
      (stepCell w cfg st p)
      (s + (if survivesAt w st p then 1 else 0))
      (b + (if breedsAt w cfg st p then 1 else 0))
    rw [List.foldl_cons]
    dsimp only [statsStep]
    omega

theorem foldl_statsStep_survivors_le (w : World) (cfg : Config) :
    ∀ (l : List (Int × Int)) (st : World × RandSrc) (s b : Nat),
      (l.foldl (statsStep w cfg) (st, s, b)).2.1 ≤
        s + l.countP (fun p => ((w.cells p.1 p.2).entity == Entity.fish) ||
          ((w.cells p.1 p.2).entity == Entity.shark)) := by
  intro l
  induction l with
  | nil => intro st s b; simp
  | cons p rest ih =>
    intro st s b
    have hih := ih (stepCell w cfg st p)
      (s + (if survivesAt w st p then 1 else 0))
      (b + (if breedsAt w cfg st p then 1 else 0))
    have hcmp : (if survivesAt w st p then 1 else 0) ≤
        (if ((w.cells p.1 p.2).entity == Entity.fish) ||
          ((w.cells p.1 p.2).entity == Entity.shark) then 1 else 0) := by
      by_cases hsv : survivesAt w st p = true
      · have hpred : (((w.cells p.1 p.2).entity == Entity.fish) ||
            ((w.cells p.1 p.2).entity == Entity.shark)) = true := by
          simp only [survivesAt, Bool.and_eq_true, Bool.or_eq_true, beq_iff_eq,
            decide_eq_true_eq] at hsv
          simp only [Bool.or_eq_true, beq_iff_eq]
          rcases hsv.2 with h | h
          · exact Or.inl h
          · exact Or.inr h.1
        rw [hsv, hpred]
      · rw [Bool.eq_false_iff.mpr hsv]
        simp
    rw [List.foldl_cons, List.countP_cons]
    dsimp only [statsStep]
    omega

theorem countOn_fish_add_shark (l : List (Int × Int)) (w : World) :
    l.countP (fun p => ((w.cells p.1 p.2).entity == Entity.fish) ||
      ((w.cells p.1 p.2).entity == Entity.shark)) =
    countOn l w Entity.fish + countOn l w Entity.shark := by
  unfold countOn
  induction l with
  | nil => simp
  | cons a rest ih =>
    rw [List.countP_cons, List.countP_cons, List.countP_cons, ih]
    cases hE : (w.cells a.1 a.2).entity <;> simp [hE] <;> omega

theorem countOn_all_empty (l : List (Int × Int)) (w : World)
    (h : ∀ p ∈ l, (w.cells p.1 p.2).entity = Entity.empty) (e : Entity)
    (he : e ≠ Entity.empty) : countOn l w e = 0 := by
  refine List.countP_eq_zero.mpr (fun a ha => ?_)
  simp only [beq_iff_eq, h a ha]
  exact fun hh => he hh.symm

/-- C2: within one single-threaded step, a cell of the next grid that holds a
fish or shark is never overwritten for the rest of the step; the organism
count of the next generation is exactly the number of surviving processed
organisms plus one offspring per qualifying breed event; the survivors are at
most the current organism count, so the next generation never exceeds the
current total plus the number of breed events. -/
theorem step_conserves_organisms (w : World) (cfg : Config) (rnd : RandSrc)
    (hs : 2 ≤ w.size) :
    (∀ l1 l2 : List (Int × Int), coords w.size = l1 ++ l2 → ∀ q1 q2 : Int,
      ((l1.foldl (stepCell w cfg) (newEmptyWorldLike w, rnd)).1.cells q1 q2).entity ≠
        Entity.empty →
      (stepWorld w cfg rnd).1.cells q1 q2 =
        (l1.foldl (stepCell w cfg) (newEmptyWorldLike w, rnd)).1.cells q1 q2) ∧
    countOrganisms (stepWorld w cfg rnd).1 =
      stepSurvivors w cfg rnd + stepBreedEvents w cfg rnd ∧
    stepSurvivors w cfg rnd ≤ countOrganisms w ∧
    countOrganisms (stepWorld w cfg rnd).1 ≤
      countOrganisms w + stepBreedEvents w cfg rnd := by
  have hfst := stepWorldStats_fst w cfg rnd
  have hmain := foldl_statsStep_count w cfg hs (coords w.size) (fun _ hp => hp)
    (newEmptyWorldLike w, rnd) 0 0
  have hzf : countOn (coords w.size) (newEmptyWorldLike w) Entity.fish = 0 :=
    countOn_all_empty _ _ (fun _ _ => rfl) _ (by simp)
  have hzs : countOn (coords w.size) (newEmptyWorldLike w) Entity.shark = 0 :=
    countOn_all_empty _ _ (fun _ _ => rfl) _ (by simp)
  have hworld : (stepWorldStats w cfg rnd).1.1 = (stepWorld w cfg rnd).1 := by
    rw [hfst]
  have hcountres : countOrganisms (stepWorld w cfg rnd).1 =
      countOn (coords w.size) (stepWorld w cfg rnd).1 Entity.fish +
      countOn (coords w.size) (stepWorld w cfg rnd).1 Entity.shark := by
    rw [countOrganisms, countEntities_eq_countOn, countEntities_eq_countOn,
      stepWorld_size]
  have hcountw : countOrganisms w =
      countOn (coords w.size) w Entity.fish + countOn (coords w.size) w Entity.shark := by
    rw [countOrganisms, countEntities_eq_countOn, countEntities_eq_countOn]
  have hEq : countOrganisms (stepWorld w cfg rnd).1 =
      stepSurvivors w cfg rnd + stepBreedEvents w cfg rnd := by
    have hm := hmain
    rw [stepWorldStats] at hworld
    rw [hworld] at hm
    dsimp only at hm
    rw [hzf, hzs] at hm
    rw [hcountres, stepSurvivors, stepBreedEvents, stepWorldStats]
    omega
  have hLe : stepSurvivors w cfg rnd ≤ countOrganisms w := by
    rw [stepSurvivors, stepWorldStats, hcountw]
    have := foldl_statsStep_survivors_le w cfg (coords w.size)
      (newEmptyWorldLike w, rnd) 0 0
    rw [countOn_fish_add_shark] at this
    omega
  refine ⟨?_, hEq, hLe, by omega⟩
  intro l1 l2 heq q1 q2 hne
  rw [stepWorld, heq, List.foldl_append]
  exact foldl_stepCell_preserves_occupied w cfg l2 _ q1 q2 hne

/-- Witness for C2 at a concrete 3x3 world holding one shark and one fish. -/
theorem step_conserves_organisms_witness :
    countOrganisms (stepWorld cexSharkEatWorld cexSharkCfg (fun _ => 0)).1 ≤
      countOrganisms cexSharkEatWorld +
        stepBreedEvents cexSharkEatWorld cexSharkCfg (fun _ => 0) :=
  (step_conserves_organisms cexSharkEatWorld cexSharkCfg (fun _ => 0) (by decide)).2.2.2
